import Mathlib

/-!
# filehash: a shallow embedding of `src/filehash.c`

The C program computes MD5 / SHA1 / SHA256 digests of files.  Its functions are
embedded here as pure Lean functions:

* the file system is a finite-map style function from paths to inodes, fixed for
  the duration of a run (the program itself never writes to a file);
* a `FILE` stream delivers the bytes of its inode in order and then reports either
  end-of-file or a read error; a read may also fail on the way, in which case the
  call returns the bytes gathered so far and later calls go on from there; the `feof`
  and `ferror` indicators are kept in the stream state;
* the OpenSSL digest primitives are a parameter (`OpenSSL`): nothing is assumed about
  them unless a theorem says so;
* what the program does to the outside is recorded as a list of `Event`s in program
  order: text written to standard output, lines written to the diagnostic stream,
  and one marker for every call of `is_valid_file`, `calculate_file_hash` and
  `print_hash` made by `main`.
-/

namespace FileHash

/-! ## Data model -/

/-- An `unsigned char`. -/
abbrev Byte := Fin 256

/-- Memory reachable through an `unsigned char *`: the byte at each index. -/
abbrev Buffer := Nat → Byte

/-- `#define BUFFER_SIZE 8192` (filehash.h). -/
def BUFFER_SIZE : Nat := 8192

/-- Digest length of MD5 in bytes, from `<openssl/md5.h>`. -/
def MD5_DIGEST_LENGTH : Nat := 16
/-- Digest length of SHA1 in bytes, from `<openssl/sha.h>`. -/
def SHA_DIGEST_LENGTH : Nat := 20
/-- Digest length of SHA256 in bytes, from `<openssl/sha.h>`. -/
def SHA256_DIGEST_LENGTH : Nat := 32

/-- The enumeration `hash_type_t` of filehash.h.  Only enumerators are values of this
type, so the `default:` arms of the C switches have no counterpart. -/
inductive hash_type_t where
  | HASH_MD5
  | HASH_SHA1
  | HASH_SHA256
  deriving DecidableEq, Repr

open hash_type_t

/-- The file type bits of `st_mode`, as far as `S_ISDIR` / `S_ISREG` look at them. -/
inductive FileType where
  | directory
  | regular
  | special
  deriving DecidableEq, Repr

/-- What a path resolves to. -/
structure Inode where
  /-- file type reported by `stat` -/
  st_mode : FileType
  /-- whether `fopen(path, "rb")` succeeds -/
  openable : Bool
  /-- the bytes that reads deliver, in order -/
  data : List Byte
  /-- whether the read following the last byte of `data` fails (instead of hitting
  end-of-file) -/
  read_error : Bool
  /-- read failures on the way, each met once: the first after `faults[0]` bytes have
  been delivered, the next `faults[1]` bytes further on, and so on; one that lies
  beyond the end of `data` is never met -/
  faults : List Nat := []
  deriving DecidableEq

/-- The environment of one run. -/
structure World where
  /-- path resolution; `none` when the path cannot be stat-ed -/
  fs : String → Option Inode
  /-- the indeterminate contents of a freshly declared local array -/
  uninit : Buffer

/-- An open stream. -/
structure FILE where
  /-- bytes still to be delivered -/
  pending : List Byte
  /-- whether the stream ends in a read error rather than end-of-file -/
  failing : Bool
  /-- the end-of-file indicator (`feof`) -/
  eof : Bool
  /-- the error indicator (`ferror`) -/
  error : Bool
  /-- the read failures still ahead: the next one after `faults[0]` more bytes, the one
  after it `faults[1]` bytes further on, and so on -/
  faults : List Nat := []
  deriving DecidableEq

/-- The digest primitives taken from OpenSSL.  A context is a value; `*_Update`
consumes the bytes of one buffer, `*_Final` yields the bytes written to the output
array. -/
structure OpenSSL where
  MD5_CTX : Type
  MD5_Init : MD5_CTX
  MD5_Update : MD5_CTX → List Byte → MD5_CTX
  MD5_Final : MD5_CTX → List Byte
  SHA_CTX : Type
  SHA1_Init : SHA_CTX
  SHA1_Update : SHA_CTX → List Byte → SHA_CTX
  SHA1_Final : SHA_CTX → List Byte
  SHA256_CTX : Type
  SHA256_Init : SHA256_CTX
  SHA256_Update : SHA256_CTX → List Byte → SHA256_CTX
  SHA256_Final : SHA256_CTX → List Byte

/-- Observable steps of a run, in program order. -/
inductive Event where
  /-- text written to standard output -/
  | stdout (text : String)
  /-- one `fprintf(stderr, ...)` -/
  | stderr (text : String)
  /-- `main` called `is_valid_file(filename)` and got `ret` -/
  | is_valid_file (filename : String) (ret : Int)
  /-- `main` called `calculate_file_hash(filename, type, hash)` and got `ret` -/
  | calculate_file_hash (filename : String) (type : hash_type_t) (ret : Int)
  /-- `main` called `print_hash(hash, length, filename, type)` -/
  | print_hash (length : Nat) (filename : String) (type : hash_type_t)
  deriving DecidableEq, Repr

/-! ## The C library -/

/-- `stat(filename, &path_stat)`: the inode, or `none` for a non-zero return. -/
def stat (W : World) (filename : String) : Option Inode :=
  W.fs filename

def S_ISDIR (m : FileType) : Bool := m = FileType.directory

def S_ISREG (m : FileType) : Bool := m = FileType.regular

/-- `fopen(filename, "rb")`: a stream at the start of the file, or `none` for `NULL`. -/
def fopen (W : World) (filename : String) : Option FILE :=
  match W.fs filename with
  | none => none
  | some ino =>
    if ino.openable then
      some { pending := ino.data, failing := ino.read_error, eof := false, error := false,
             faults := ino.faults }
    else none

/-- `fread(buffer, 1, nmemb, file)`: the bytes stored into the buffer (their number is
the return value) and the stream afterwards.  A short count sets the end-of-file or
the error indicator.  When a read failure lies within reach of this call, the call
returns the bytes before it (possibly none) with the error indicator set, and the
failure is behind the stream; the indicators do not keep later calls from reading. -/
def fread (nmemb : Nat) (file : FILE) : List Byte × FILE :=
  match file.faults with
  | k :: rest =>
    if k < nmemb ∧ k ≤ file.pending.length then
      (file.pending.take k,
       { pending := file.pending.drop k,
         failing := file.failing,
         eof := file.eof,
         error := true,
         faults := rest })
    else
      let chunk := file.pending.take nmemb
      let short : Bool := chunk.length < nmemb
      (chunk,
       { pending := file.pending.drop nmemb,
         failing := file.failing,
         eof := file.eof || (short && !file.failing),
         error := file.error || (short && file.failing),
         faults := (k - chunk.length) :: rest })
  | [] =>
    let chunk := file.pending.take nmemb
    let short : Bool := chunk.length < nmemb
    (chunk,
     { pending := file.pending.drop nmemb,
       failing := file.failing,
       eof := file.eof || (short && !file.failing),
       error := file.error || (short && file.failing) })

/-- Writing `bytes` at the start of `buf`, as `*_Final(buf, &ctx)` does. -/
def store (buf : Buffer) (bytes : List Byte) : Buffer :=
  fun i => if h : i < bytes.length then bytes.get ⟨i, h⟩ else buf i

/-- `printf("%02x", n)`: lowercase hexadecimal, padded with zeros to width two. -/
def fmt_02x (n : Nat) : String :=
  let digits := Nat.toDigits 16 n
  String.mk (List.replicate (2 - digits.length) '0' ++ digits)

/-! ## filehash.c -/

/-- The loop
`while ((bytes_read = fread(buffer, 1, BUFFER_SIZE, file)) > 0) Update(&ctx, buffer, bytes_read);`
shared by the three arms of the switch in `calculate_file_hash`.  Returns the context
and the stream after the loop. -/
def read_loop {CTX : Type} (Update : CTX → List Byte → CTX) (file : FILE) (ctx : CTX) :
    CTX × FILE :=
  if 0 < (fread BUFFER_SIZE file).1.length then
    read_loop Update (fread BUFFER_SIZE file).2 (Update ctx (fread BUFFER_SIZE file).1)
  else
    (ctx, (fread BUFFER_SIZE file).2)
termination_by file.pending.length
decreasing_by
  rename_i h
  have h8 : 0 < BUFFER_SIZE := by decide
  cases hfa : file.faults with
  | nil =>
    simp only [fread, hfa, List.length_take, List.length_drop] at h ⊢
    omega
  | cons k rest =>
    by_cases hk : k < BUFFER_SIZE ∧ k ≤ file.pending.length
    · simp only [fread, hfa, hk, and_self, if_true, List.length_take, List.length_drop] at h ⊢
      omega
    · simp only [fread, hfa, hk, if_false, List.length_take, List.length_drop] at h ⊢
      omega

/-- `calculate_file_hash(filename, type, hash_output)`: the return value, the output
array afterwards, and the lines written to the diagnostic stream. -/
def calculate_file_hash (W : World) (L : OpenSSL) (filename : String) (type : hash_type_t)
    (hash_output : Buffer) : Int × Buffer × List Event :=
  match fopen W filename with
  | none => (-1, hash_output, [Event.stderr ("Error: Cannot open file '" ++ filename ++ "'\n")])
  | some file =>
    match type with
    | HASH_MD5 =>
      let ctx := (read_loop L.MD5_Update file L.MD5_Init).1
      (0, store hash_output (L.MD5_Final ctx), [])
    | HASH_SHA1 =>
      let ctx := (read_loop L.SHA1_Update file L.SHA1_Init).1
      (0, store hash_output (L.SHA1_Final ctx), [])
    | HASH_SHA256 =>
      let ctx := (read_loop L.SHA256_Update file L.SHA256_Init).1
      (0, store hash_output (L.SHA256_Final ctx), [])

/-- `get_hash_name(type)`. -/
def get_hash_name (type : hash_type_t) : String :=
  match type with
  | HASH_MD5 => "MD5"
  | HASH_SHA1 => "SHA1"
  | HASH_SHA256 => "SHA256"

/-- `print_hash(hash, length, filename, type)`: the text written to standard output by
its `printf` calls, in order. -/
def print_hash (hash : Buffer) (length : Nat) (filename : String) (type : hash_type_t) :
    String :=
  get_hash_name type ++ " ("
    ++ (List.range length).foldl (fun out i => out ++ fmt_02x (hash i).val) ""
    ++ ") = " ++ filename ++ "\n"

/-- `is_valid_file(filename)`: the return value and the lines written to the diagnostic
stream. -/
def is_valid_file (W : World) (filename : String) : Int × List Event :=
  match stat W filename with
  | none => (0, [])
  | some path_stat =>
    if S_ISDIR path_stat.st_mode then
      (0, [Event.stderr ("Error: '" ++ filename ++ "' is a directory, not a file\n")])
    else if !S_ISREG path_stat.st_mode then
      (0, [Event.stderr ("Error: '" ++ filename ++ "' is not a regular file\n")])
    else
      (1, [])

/-- `print_usage(program_name)`: the text written to standard output. -/
def print_usage (program_name : String) : String :=
  "Usage: " ++ program_name ++ " [OPTIONS] FILE...\n"
    ++ "Calculate hash values for files\n\n"
    ++ "Options:\n"
    ++ "  -m, --md5      Calculate MD5 hash (default)\n"
    ++ "  -s, --sha1     Calculate SHA1 hash\n"
    ++ "  -S, --sha256   Calculate SHA256 hash\n"
    ++ "  -a, --all      Calculate all hash types\n"
    ++ "  -h, --help     Show this help message\n"
    ++ "  -v, --version  Show version information\n\n"
    ++ "Examples:\n"
    ++ "  " ++ program_name ++ " file.txt                # Calculate MD5 hash\n"
    ++ "  " ++ program_name ++ " -s file.txt             # Calculate SHA1 hash\n"
    ++ "  " ++ program_name ++ " -S file.txt             # Calculate SHA256 hash\n"
    ++ "  " ++ program_name ++ " -a file.txt             # Calculate all hash types\n"
    ++ "  " ++ program_name ++ " *.txt                   # Calculate MD5 for all .txt files\n"

/-- How the flag loop of `main` (lines 114-137) ends. -/
inductive Scan where
  /-- a `return` inside the loop -/
  | returned (code : Int) (out : List Event)
  /-- the loop was left by `break` or by `i < argc` failing, with these values of
  `hash_type`, `calculate_all` and `file_start_index` -/
  | files (hash_type : hash_type_t) (calculate_all : Bool) (file_start_index : Nat)
  deriving DecidableEq, Repr

/-- The flag loop `for (int i = 1; i < argc; i++)` of `main`.  The list argument is
`argv[i], ..., argv[argc-1]`. -/
def scan_flags (program_name : String) :
    List String → Nat → hash_type_t → Bool → Nat → Scan
  | [], _, hash_type, calculate_all, file_start_index =>
    Scan.files hash_type calculate_all file_start_index
  | arg :: rest, i, hash_type, calculate_all, file_start_index =>
    if arg = "-h" ∨ arg = "--help" then
      Scan.returned 0 [Event.stdout (print_usage program_name)]
    else if arg = "-v" ∨ arg = "--version" then
      Scan.returned 0
        [Event.stdout "filehash 1.0.0\n",
         Event.stdout "A simple file hash calculator supporting MD5, SHA1, and SHA256\n"]
    else if arg = "-m" ∨ arg = "--md5" then
      scan_flags program_name rest (i + 1) HASH_MD5 calculate_all (i + 1)
    else if arg = "-s" ∨ arg = "--sha1" then
      scan_flags program_name rest (i + 1) HASH_SHA1 calculate_all (i + 1)
    else if arg = "-S" ∨ arg = "--sha256" then
      scan_flags program_name rest (i + 1) HASH_SHA256 calculate_all (i + 1)
    else if arg = "-a" ∨ arg = "--all" then
      scan_flags program_name rest (i + 1) hash_type true (i + 1)
    else
      Scan.files hash_type calculate_all file_start_index

/-- One round of the inner loop `for (int j = 0; j < 3; j++)` of `main` (lines 160-167). -/
def all_step (W : World) (L : OpenSSL) (filename : String)
    (acc : Int × List Event) (tl : hash_type_t × Nat) : Int × List Event :=
  let r := calculate_file_hash W L filename tl.1 W.uninit
  let called := acc.2 ++ [Event.calculate_file_hash filename tl.1 r.1] ++ r.2.2
  if r.1 = 0 then
    (acc.1, called ++ [Event.print_hash tl.2 filename tl.1,
                       Event.stdout (print_hash r.2.1 tl.2 filename tl.1)])
  else
    (1, called)

/-- The body of the file loop of `main` (lines 148-184) for one `filename`: the value of
`exit_code` afterwards and the events of this round. -/
def process_file (W : World) (L : OpenSSL) (hash_type : hash_type_t) (calculate_all : Bool)
    (exit_code : Int) (filename : String) : Int × List Event :=
  let v := is_valid_file W filename
  if v.1 = 0 then
    (1, [Event.is_valid_file filename v.1] ++ v.2
          ++ [Event.stderr ("Error: Cannot access file '" ++ filename ++ "'\n")])
  else if calculate_all then
    let types := [HASH_MD5, HASH_SHA1, HASH_SHA256]
    let lengths := [MD5_DIGEST_LENGTH, SHA_DIGEST_LENGTH, SHA256_DIGEST_LENGTH]
    (types.zip lengths).foldl (all_step W L filename)
      (exit_code, [Event.is_valid_file filename v.1] ++ v.2)
  else
    let hash_length :=
      match hash_type with
      | HASH_MD5 => MD5_DIGEST_LENGTH
      | HASH_SHA1 => SHA_DIGEST_LENGTH
      | HASH_SHA256 => SHA256_DIGEST_LENGTH
    let r := calculate_file_hash W L filename hash_type W.uninit
    let called := [Event.is_valid_file filename v.1] ++ v.2
      ++ [Event.calculate_file_hash filename hash_type r.1] ++ r.2.2
    if r.1 = 0 then
      (exit_code, called ++ [Event.print_hash hash_length filename hash_type,
                             Event.stdout (print_hash r.2.1 hash_length filename hash_type)])
    else
      (1, called)

/-- The file loop `for (int i = file_start_index; i < argc; i++)` of `main`.  The list
argument is `argv[i], ..., argv[argc-1]`. -/
def file_loop (W : World) (L : OpenSSL) (hash_type : hash_type_t) (calculate_all : Bool) :
    List String → Int → List Event → Int × List Event
  | [], exit_code, trace => (exit_code, trace)
  | filename :: rest, exit_code, trace =>
    let r := process_file W L hash_type calculate_all exit_code filename
    file_loop W L hash_type calculate_all rest r.1 (trace ++ r.2)

/-- `main(argc, argv)` with `argc = argv.length`: the exit status and the events of the
run.  A null `argv[0]` is printed by `%s` as `(null)`. -/
def main (W : World) (L : OpenSSL) (argv : List String) : Int × List Event :=
  let argc := argv.length
  let program_name := argv.headD "(null)"
  if argc < 2 then
    (1, [Event.stdout (print_usage program_name)])
  else
    match scan_flags program_name (argv.drop 1) 1 HASH_MD5 false 1 with
    | Scan.returned code out => (code, out)
    | Scan.files hash_type calculate_all file_start_index =>
      if file_start_index ≥ argc then
        (1, [Event.stderr "Error: No files specified\n",
             Event.stdout (print_usage program_name)])
      else
        file_loop W L hash_type calculate_all (argv.drop file_start_index) 0 []

/-! ## Notions used to state the properties -/

/-- The sixteen lowercase hexadecimal digits, in order of value. -/
def hex_alphabet : List Char := "0123456789abcdef".toList

/-- The digit that stands for the nibble `k`. -/
def nibble_char (k : Nat) : Char := hex_alphabet.getD k '0'

/-- The value of a hexadecimal digit. -/
def nibble_value (c : Char) : Nat := hex_alphabet.indexOf c

/-- Two digits per byte, high nibble first, for the bytes `hash[0..length)` in order. -/
def hexdigest (hash : Buffer) (length : Nat) : List Char :=
  (List.range length).flatMap fun i =>
    [nibble_char ((hash i).val / 16), nibble_char ((hash i).val % 16)]

/-- Reading a digit string back, two digits per byte. -/
def decode_hex : List Char → List Nat
  | hi :: lo :: rest => (16 * nibble_value hi + nibble_value lo) :: decode_hex rest
  | _ => []

/-- The tokens `-h`, `--help`, `-v`, `--version`. -/
def is_help_or_version (s : String) : Bool :=
  s = "-h" ∨ s = "--help" ∨ s = "-v" ∨ s = "--version"

/-- The tokens `-a`, `--all`. -/
def is_all_flag (s : String) : Bool :=
  s = "-a" ∨ s = "--all"

/-- The algorithm named by a single-algorithm flag (`-m / --md5`, `-s / --sha1`,
`-S / --sha256`), if the token is one. -/
def single_flag (s : String) : Option hash_type_t :=
  if s = "-m" ∨ s = "--md5" then some HASH_MD5
  else if s = "-s" ∨ s = "--sha1" then some HASH_SHA1
  else if s = "-S" ∨ s = "--sha256" then some HASH_SHA256
  else none

/-- The recognised flag spellings. -/
def is_flag (s : String) : Bool :=
  is_help_or_version s || is_all_flag s || (single_flag s).isSome

/-- The flag prefix of an argument vector: the recognised flags after `argv[0]`, up to
the first token that is not one. -/
def leading_flags (argv : List String) : List String :=
  (argv.drop 1).takeWhile is_flag

/-- The file arguments: the first token after `argv[0]` that is not a recognised flag,
and every token after it. -/
def file_arguments (argv : List String) : List String :=
  (argv.drop 1).dropWhile is_flag

/-- The algorithm named by the last single-algorithm flag of a flag prefix, MD5 when
there is none. -/
def selected_algorithm (pre : List String) : hash_type_t :=
  ((pre.filterMap single_flag).getLast?).getD HASH_MD5

/-- Whether a flag prefix contains `-a` or `--all`. -/
def all_requested (pre : List String) : Bool :=
  pre.any is_all_flag

/-- The algorithms to run for each file: all three in the order MD5, SHA1, SHA256 in
`--all` mode, the selected one otherwise. -/
def requested_types (pre : List String) : List hash_type_t :=
  if all_requested pre then [HASH_MD5, HASH_SHA1, HASH_SHA256] else [selected_algorithm pre]

/-- The fixed output length of each algorithm in bytes (16, 20, 32). -/
def digest_length : hash_type_t → Nat
  | HASH_MD5 => 16
  | HASH_SHA1 => 20
  | HASH_SHA256 => 32

/-- The events of one digest computation for `filename` with algorithm `t`: the call of
`calculate_file_hash`, its diagnostic line if any and, when it returned 0, the call of
`print_hash` with the length of `t` and the line it prints. -/
def hash_events (W : World) (L : OpenSSL) (filename : String) (t : hash_type_t) :
    List Event :=
  let r := calculate_file_hash W L filename t W.uninit
  [Event.calculate_file_hash filename t r.1] ++ r.2.2 ++
    (if r.1 = 0 then
      [Event.print_hash (digest_length t) filename t,
       Event.stdout (print_hash r.2.1 (digest_length t) filename t)]
    else [])

/-- The events of one file argument when the algorithms `types` are requested. -/
def file_events (W : World) (L : OpenSSL) (types : List hash_type_t) (filename : String) :
    List Event :=
  let v := is_valid_file W filename
  [Event.is_valid_file filename v.1] ++ v.2 ++
    (if v.1 = 0 then [Event.stderr ("Error: Cannot access file '" ++ filename ++ "'\n")]
     else types.flatMap (hash_events W L filename))

/-- Whether a file argument is validated and every requested digest computation for it
returns 0. -/
def file_ok (W : World) (L : OpenSSL) (types : List hash_type_t) (filename : String) : Bool :=
  (is_valid_file W filename).1 ≠ 0
    ∧ ∀ t ∈ types, (calculate_file_hash W L filename t W.uninit).1 = 0

/-- The calls of `is_valid_file` (file name, return value), in call order. -/
def validations (trace : List Event) : List (String × Int) :=
  trace.filterMap fun e =>
    match e with
    | Event.is_valid_file f r => some (f, r)
    | _ => none

/-- The calls of `calculate_file_hash` (file name, algorithm, return value), in call
order. -/
def hash_calls (trace : List Event) : List (String × hash_type_t × Int) :=
  trace.filterMap fun e =>
    match e with
    | Event.calculate_file_hash f t r => some (f, t, r)
    | _ => none

/-- The calls of `print_hash` (length, file name, algorithm), in call order. -/
def print_calls (trace : List Event) : List (Nat × String × hash_type_t) :=
  trace.filterMap fun e =>
    match e with
    | Event.print_hash n f t => some (n, f, t)
    | _ => none

/-- What was written to standard output, in order. -/
def stdout_of (trace : List Event) : List String :=
  trace.filterMap fun e =>
    match e with
    | Event.stdout s => some s
    | _ => none

/-- The lines written to the diagnostic stream, in order. -/
def stderr_of (trace : List Event) : List String :=
  trace.filterMap fun e =>
    match e with
    | Event.stderr s => some s
    | _ => none

/-- Whether `is_valid_file` accepts a path. -/
def valid (W : World) (filename : String) : Bool :=
  (is_valid_file W filename).1 ≠ 0

/-- Whether `calculate_file_hash` returns 0 for a path and an algorithm. -/
def hashes (W : World) (L : OpenSSL) (filename : String) (t : hash_type_t) : Bool :=
  (calculate_file_hash W L filename t W.uninit).1 = 0

/-- The line printed for the digest that `calculate_file_hash` leaves in the array. -/
def digest_line (W : World) (L : OpenSSL) (filename : String) (t : hash_type_t) : String :=
  print_hash (calculate_file_hash W L filename t W.uninit).2.1 (digest_length t) filename t

/-- The diagnostic lines for one file argument when the algorithms `types` are
requested: one line when the path cannot be stat-ed; the reason line of
`is_valid_file` followed by the line of `main` for a directory and for any other
non-regular file; one line per requested algorithm for a regular file that cannot be
opened; none otherwise. -/
def diagnostics (W : World) (types : List hash_type_t) (filename : String) : List String :=
  match W.fs filename with
  | none => ["Error: Cannot access file '" ++ filename ++ "'\n"]
  | some ino =>
    match ino.st_mode with
    | FileType.directory =>
      ["Error: '" ++ filename ++ "' is a directory, not a file\n",
       "Error: Cannot access file '" ++ filename ++ "'\n"]
    | FileType.special =>
      ["Error: '" ++ filename ++ "' is not a regular file\n",
       "Error: Cannot access file '" ++ filename ++ "'\n"]
    | FileType.regular =>
      if ino.openable then []
      else types.map fun _ => "Error: Cannot open file '" ++ filename ++ "'\n"

/-- Whether some read of the chunk loop on this stream reports an error, that is, the
error indicator of the stream when the loop ends. -/
def read_fails (file : FILE) : Bool :=
  (read_loop (fun (c : Unit) (_ : List Byte) => c) file ()).2.error

/-- The digest of `content` taken in one pass: Init, one Update over the whole
content, Final. -/
def one_pass_digest (L : OpenSSL) (t : hash_type_t) (content : List Byte) : List Byte :=
  match t with
  | HASH_MD5 => L.MD5_Final (L.MD5_Update L.MD5_Init content)
  | HASH_SHA1 => L.SHA1_Final (L.SHA1_Update L.SHA1_Init content)
  | HASH_SHA256 => L.SHA256_Final (L.SHA256_Update L.SHA256_Init content)

/-- The digest of no input at all: Init, then Final. -/
def initial_digest (L : OpenSSL) (t : hash_type_t) : List Byte :=
  match t with
  | HASH_MD5 => L.MD5_Final L.MD5_Init
  | HASH_SHA1 => L.SHA1_Final L.SHA1_Init
  | HASH_SHA256 => L.SHA256_Final L.SHA256_Init

/-- The assumption `Update(Update(c, a), b) = Update(c, a ++ b)` on the three Update
functions of the library. -/
def update_concatenates (L : OpenSSL) : Prop :=
  (∀ c a b, L.MD5_Update (L.MD5_Update c a) b = L.MD5_Update c (a ++ b))
    ∧ (∀ c a b, L.SHA1_Update (L.SHA1_Update c a) b = L.SHA1_Update c (a ++ b))
    ∧ (∀ c a b, L.SHA256_Update (L.SHA256_Update c a) b = L.SHA256_Update c (a ++ b))

/-- The assumption `Update(c, []) = c` on the three Update functions of the library. -/
def update_neutral (L : OpenSSL) : Prop :=
  (∀ c, L.MD5_Update c [] = c)
    ∧ (∀ c, L.SHA1_Update c [] = c)
    ∧ (∀ c, L.SHA256_Update c [] = c)

/-- What `calculate_file_hash` returns when Update concatenates: failure if the file
cannot be opened, else the digest of the bytes the stream delivers, taken in one pass
(without any Update when the stream delivers nothing). -/
def one_pass_result (W : World) (L : OpenSSL) (filename : String) (t : hash_type_t)
    (hash_output : Buffer) : Int × Buffer × List Event :=
  match fopen W filename with
  | none => (-1, hash_output, [Event.stderr ("Error: Cannot open file '" ++ filename ++ "'\n")])
  | some file =>
    (0, store hash_output
          (if file.pending = [] then initial_digest L t else one_pass_digest L t file.pending),
     [])

/-! ## Sample environments -/

/-- A stand-in digest: `n` copies of the sum of the bytes modulo 256. -/
def checksum (n : Nat) (content : List Byte) : List Byte :=
  List.replicate n (content.foldl (fun a b => a + b) 0)

/-- A library whose contexts collect the bytes seen so far. -/
def sampleSSL : OpenSSL where
  MD5_CTX := List Byte
  MD5_Init := []
  MD5_Update := fun c a => c ++ a
  MD5_Final := checksum 16
  SHA_CTX := List Byte
  SHA1_Init := []
  SHA1_Update := fun c a => c ++ a
  SHA1_Final := checksum 20
  SHA256_CTX := List Byte
  SHA256_Init := []
  SHA256_Update := fun c a => c ++ a
  SHA256_Final := checksum 32

/-- A library whose contexts also remember whether Update was ever called: its digest
of a context that never saw an Update is all `0xff`. -/
def markingSSL : OpenSSL where
  MD5_CTX := Bool × List Byte
  MD5_Init := (false, [])
  MD5_Update := fun c a => (true, c.2 ++ a)
  MD5_Final := fun c => if c.1 then checksum 16 c.2 else List.replicate 16 255
  SHA_CTX := Bool × List Byte
  SHA1_Init := (false, [])
  SHA1_Update := fun c a => (true, c.2 ++ a)
  SHA1_Final := fun c => if c.1 then checksum 20 c.2 else List.replicate 20 255
  SHA256_CTX := Bool × List Byte
  SHA256_Init := (false, [])
  SHA256_Update := fun c a => (true, c.2 ++ a)
  SHA256_Final := fun c => if c.1 then checksum 32 c.2 else List.replicate 32 255

/-- A small file system: two readable regular files, an empty one, a directory, a
device, a regular file that cannot be opened, and a regular file whose reads fail after
three bytes. -/
def sampleWorld : World where
  fs := fun path =>
    if path = "a.txt" then
      some { st_mode := FileType.regular, openable := true, data := [10, 255], read_error := false }
    else if path = "b.txt" then
      some { st_mode := FileType.regular, openable := true, data := [1], read_error := false }
    else if path = "-s" then
      some { st_mode := FileType.regular, openable := true, data := [7, 7], read_error := false }
    else if path = "empty" then
      some { st_mode := FileType.regular, openable := true, data := [], read_error := false }
    else if path = "dir" then
      some { st_mode := FileType.directory, openable := true, data := [], read_error := true }
    else if path = "tty" then
      some { st_mode := FileType.special, openable := true, data := [], read_error := false }
    else if path = "locked" then
      some { st_mode := FileType.regular, openable := false, data := [], read_error := false }
    else if path = "bad" then
      some { st_mode := FileType.regular, openable := true, data := [1, 2, 3], read_error := true }
    else none
  uninit := fun _ => 0

/-- A file system in which every path is a readable regular file holding the three
bytes 1, 2, 3. -/
def plainWorld : World where
  fs := fun _ =>
    some { st_mode := FileType.regular, openable := true, data := [1, 2, 3], read_error := false }
  uninit := fun _ => 0

/-- A file system in which every path is a readable regular file of 8193 zero bytes,
one more than the chunk size. -/
def bigWorld : World where
  fs := fun _ =>
    some { st_mode := FileType.regular, openable := true, data := List.replicate 8193 0,
           read_error := false }
  uninit := fun _ => 0

/-- A file system in which every path is a regular file of the seven bytes 1 to 7
whose first read fails after three bytes, later reads going through. -/
def flakyWorld : World where
  fs := fun _ =>
    some { st_mode := FileType.regular, openable := true, data := [1, 2, 3, 4, 5, 6, 7],
           read_error := false, faults := [3] }
  uninit := fun _ => 0

/-! ## Lemmas on the formatter -/

set_option maxRecDepth 100000 in
theorem fmt_02x_byte (b : Byte) :
    fmt_02x b.val = String.mk [nibble_char (b.val / 16), nibble_char (b.val % 16)] := by
  revert b
  decide

set_option maxRecDepth 100000 in
theorem nibble_char_mem (b : Byte) :
    nibble_char (b.val / 16) ∈ hex_alphabet ∧ nibble_char (b.val % 16) ∈ hex_alphabet := by
  revert b
  decide

set_option maxRecDepth 100000 in
theorem nibble_roundtrip (b : Byte) :
    16 * nibble_value (nibble_char (b.val / 16)) + nibble_value (nibble_char (b.val % 16))
      = b.val := by
  revert b
  decide

theorem hexdigest_succ (hash : Buffer) (n : Nat) :
    hexdigest hash (n + 1)
      = hexdigest hash n ++ [nibble_char ((hash n).val / 16), nibble_char ((hash n).val % 16)] := by
  simp [hexdigest, List.range_succ]

theorem hex_loop_eq (hash : Buffer) (n : Nat) :
    (List.range n).foldl (fun out i => out ++ fmt_02x (hash i).val) ""
      = String.mk (hexdigest hash n) := by
  induction n with
  | zero => rfl
  | succ n ih =>
    rw [List.range_succ, List.foldl_append, ih, hexdigest_succ, List.foldl_cons, List.foldl_nil,
      fmt_02x_byte]
    rfl

theorem hexdigest_length (hash : Buffer) (n : Nat) : (hexdigest hash n).length = 2 * n := by
  induction n with
  | zero => rfl
  | succ n ih => rw [hexdigest_succ, List.length_append, ih]; simp; omega

theorem hexdigest_mem (hash : Buffer) (n : Nat) : ∀ c ∈ hexdigest hash n, c ∈ hex_alphabet := by
  intro c hc
  simp only [hexdigest, List.mem_flatMap, List.mem_range] at hc
  obtain ⟨i, _, hi⟩ := hc
  have h := nibble_char_mem (hash i)
  simp only [List.mem_cons, List.mem_singleton, List.not_mem_nil, or_false] at hi
  rcases hi with rfl | rfl
  · exact h.1
  · exact h.2

theorem hexdigest_get (hash : Buffer) (n i : Nat) (hi : i < n) :
    (hexdigest hash n).get? (2 * i) = some (nibble_char ((hash i).val / 16))
      ∧ (hexdigest hash n).get? (2 * i + 1) = some (nibble_char ((hash i).val % 16)) := by
  induction n with
  | zero => omega
  | succ n ih =>
    rw [hexdigest_succ]
    by_cases h : i < n
    · have h1 : 2 * i < (hexdigest hash n).length := by rw [hexdigest_length]; omega
      have h2 : 2 * i + 1 < (hexdigest hash n).length := by rw [hexdigest_length]; omega
      simp only [List.get?_eq_getElem?]
      rw [List.getElem?_append_left h1, List.getElem?_append_left h2]
      simpa only [List.get?_eq_getElem?] using ih h
    · have hin : i = n := by omega
      subst hin
      have hl := hexdigest_length hash i
      simp only [List.get?_eq_getElem?]
      rw [List.getElem?_append_right (by omega), List.getElem?_append_right (by omega), hl]
      simp

theorem decode_hex_flatMap (hash : Buffer) (l : List Nat) :
    decode_hex (l.flatMap fun i =>
        [nibble_char ((hash i).val / 16), nibble_char ((hash i).val % 16)])
      = l.map fun i => (hash i).val := by
  induction l with
  | nil => rfl
  | cons i l ih =>
    rw [List.flatMap_cons, List.map_cons, ← ih]
    show _ :: _ = _
    rw [nibble_roundtrip]
    rfl

theorem decode_hexdigest (hash : Buffer) (n : Nat) :
    decode_hex (hexdigest hash n) = (List.range n).map fun i => (hash i).val :=
  decode_hex_flatMap hash (List.range n)

/-! ## Lemmas on the flag scan -/

theorem getLast?_cons_getD {α : Type} (t d : α) (l : List α) :
    ((t :: l).getLast?).getD d = (l.getLast?).getD t := by
  cases l with
  | nil => rfl
  | cons a l =>
    rw [List.getLast?_cons_cons, List.getLast?_eq_getLast _ (List.cons_ne_nil a l)]
    rfl

/-- The flag loop on a token list whose flag prefix holds no help or version flag: it
ends without `return`, with the algorithm of the last single-algorithm flag (else the
one it started with), `calculate_all` raised by any `-a / --all`, and the index of the
first token that is not a flag. -/
theorem scan_flags_eq (p : String) (args : List String) :
    ∀ (i : Nat) (ht : hash_type_t) (all : Bool),
      (∀ t ∈ args.takeWhile is_flag, is_help_or_version t = false) →
      scan_flags p args i ht all i
        = Scan.files ((((args.takeWhile is_flag).filterMap single_flag).getLast?).getD ht)
            (all || (args.takeWhile is_flag).any is_all_flag)
            (i + (args.takeWhile is_flag).length) := by
  induction args with
  | nil => intro i ht all _; simp [scan_flags]
  | cons a rest ih =>
    intro i ht all hv
    by_cases hf : is_flag a = true
    · have hpre : (a :: rest).takeWhile is_flag = a :: rest.takeWhile is_flag := by
        simp [List.takeWhile_cons, hf]
      rw [hpre] at hv ⊢
      have hva : is_help_or_version a = false := hv a (List.mem_cons_self _ _)
      have hvr : ∀ t ∈ rest.takeWhile is_flag, is_help_or_version t = false :=
        fun t ht => hv t (List.mem_cons_of_mem _ ht)
      simp only [is_help_or_version, decide_eq_false_iff_not, not_or] at hva
      obtain ⟨h1, h2, h3, h4⟩ := hva
      have hlen : i + (a :: rest.takeWhile is_flag).length
          = (i + 1) + (rest.takeWhile is_flag).length := by
        simp only [List.length_cons]; omega
      rw [hlen]
      unfold scan_flags
      rw [if_neg (by simp [h1, h2]), if_neg (by simp [h3, h4])]
      by_cases hm : a = "-m" ∨ a = "--md5"
      · rw [if_pos hm, ih (i + 1) HASH_MD5 all hvr]
        have hs : single_flag a = some HASH_MD5 := by simp [single_flag, hm]
        have ha : is_all_flag a = false := by
          rcases hm with rfl | rfl <;> decide
        simp [List.filterMap_cons, hs, getLast?_cons_getD, ha]
      · rw [if_neg hm]
        by_cases hs1 : a = "-s" ∨ a = "--sha1"
        · rw [if_pos hs1, ih (i + 1) HASH_SHA1 all hvr]
          have hs : single_flag a = some HASH_SHA1 := by simp [single_flag, hm, hs1]
          have ha : is_all_flag a = false := by
            rcases hs1 with rfl | rfl <;> decide
          simp [List.filterMap_cons, hs, getLast?_cons_getD, ha]
        · rw [if_neg hs1]
          by_cases hs2 : a = "-S" ∨ a = "--sha256"
          · rw [if_pos hs2, ih (i + 1) HASH_SHA256 all hvr]
            have hs : single_flag a = some HASH_SHA256 := by simp [single_flag, hm, hs1, hs2]
            have ha : is_all_flag a = false := by
              rcases hs2 with rfl | rfl <;> decide
            simp [List.filterMap_cons, hs, getLast?_cons_getD, ha]
          · rw [if_neg hs2]
            have hs : single_flag a = none := by simp [single_flag, hm, hs1, hs2]
            have ha : a = "-a" ∨ a = "--all" := by
              simp only [is_flag, is_help_or_version, is_all_flag, hs, h1, h2, h3, h4,
                Option.isSome_none, or_self, decide_False, Bool.false_or, Bool.or_false,
                decide_eq_true_eq] at hf
              exact hf
            rw [if_pos ha, ih (i + 1) ht true hvr]
            have ha2 : is_all_flag a = true := by simp [is_all_flag, ha]
            simp [List.filterMap_cons, hs, ha2]
    · have hpre : (a :: rest).takeWhile is_flag = [] := by
        simp [List.takeWhile_cons, hf]
      rw [hpre]
      have hf2 : is_flag a = false := by simpa using hf
      simp only [is_flag, is_help_or_version, is_all_flag, Bool.or_eq_false_iff,
        decide_eq_false_iff_not, not_or] at hf2
      obtain ⟨⟨⟨h1, h2, h3, h4⟩, h5, h6⟩, h7⟩ := hf2
      have hs : single_flag a = none := by
        cases h : single_flag a with
        | none => rfl
        | some t => rw [h] at h7; simp at h7
      simp only [single_flag] at hs
      unfold scan_flags
      rw [if_neg (by simp [h1, h2]), if_neg (by simp [h3, h4])]
      by_cases hm : a = "-m" ∨ a = "--md5"
      · simp [hm] at hs
      · rw [if_neg hm]
        by_cases hs1 : a = "-s" ∨ a = "--sha1"
        · simp [hm, hs1] at hs
        · rw [if_neg hs1]
          by_cases hs2 : a = "-S" ∨ a = "--sha256"
          · simp [hm, hs1, hs2] at hs
          · rw [if_neg hs2, if_neg (by simp [h5, h6])]
            simp

/-! ## Lemmas on the file loop -/

/-- The types list that `main` works through for each file, from its two variables. -/
theorem process_file_eq (W : World) (L : OpenSSL) (ht : hash_type_t) (all : Bool)
    (ec : Int) (f : String) :
    process_file W L ht all ec f
      = (if file_ok W L (if all then [HASH_MD5, HASH_SHA1, HASH_SHA256] else [ht]) f
          then ec else 1,
         file_events W L (if all then [HASH_MD5, HASH_SHA1, HASH_SHA256] else [ht]) f) := by
  unfold process_file file_events file_ok
  by_cases hv : (is_valid_file W f).1 = 0
  · simp [hv]
  · cases all with
    | true =>
      simp only [hv, if_false, if_true, List.zip_cons_cons, List.zip_nil_right, List.foldl_cons,
        List.foldl_nil, all_step, hash_events, List.flatMap_cons, List.flatMap_nil,
        MD5_DIGEST_LENGTH, SHA_DIGEST_LENGTH, SHA256_DIGEST_LENGTH, digest_length]
      by_cases h1 : (calculate_file_hash W L f HASH_MD5 W.uninit).1 = 0 <;>
      by_cases h2 : (calculate_file_hash W L f HASH_SHA1 W.uninit).1 = 0 <;>
      by_cases h3 : (calculate_file_hash W L f HASH_SHA256 W.uninit).1 = 0 <;>
      simp [h1, h2, h3, hv]
    | false =>
      by_cases h1 : (calculate_file_hash W L f ht W.uninit).1 = 0
      · cases ht <;>
          simp [h1, hv, hash_events, digest_length, MD5_DIGEST_LENGTH, SHA_DIGEST_LENGTH,
            SHA256_DIGEST_LENGTH]
      · cases ht <;>
          simp [h1, hv, hash_events, digest_length, MD5_DIGEST_LENGTH, SHA_DIGEST_LENGTH,
            SHA256_DIGEST_LENGTH]

theorem file_loop_eq (W : World) (L : OpenSSL) (ht : hash_type_t) (all : Bool)
    (files : List String) :
    ∀ (ec : Int) (tr : List Event),
      file_loop W L ht all files ec tr
        = (if files.all (file_ok W L (if all then [HASH_MD5, HASH_SHA1, HASH_SHA256] else [ht]))
            then ec else 1,
           tr ++ files.flatMap
             (file_events W L (if all then [HASH_MD5, HASH_SHA1, HASH_SHA256] else [ht]))) := by
  induction files with
  | nil => intro ec tr; simp [file_loop]
  | cons f rest ih =>
    intro ec tr
    rw [file_loop, ih, process_file_eq]
    by_cases hok : file_ok W L (if all then [HASH_MD5, HASH_SHA1, HASH_SHA256] else [ht]) f = true
    · simp [hok, List.append_assoc]
    · simp [hok, List.append_assoc]

theorem drop_takeWhile_length {α : Type} (q : α → Bool) (l : List α) :
    l.drop (l.takeWhile q).length = l.dropWhile q := by
  induction l with
  | nil => rfl
  | cons a l ih =>
    by_cases h : q a = true
    · simp [List.takeWhile_cons, List.dropWhile_cons, h, ih]
    · simp [List.takeWhile_cons, List.dropWhile_cons, h]

theorem takeWhile_length_add_dropWhile {α : Type} (q : α → Bool) (l : List α) :
    (l.takeWhile q).length + (l.dropWhile q).length = l.length := by
  rw [← List.length_append, List.takeWhile_append_dropWhile]

/-- The whole run of `main` on an argument vector whose flag prefix holds no help or
version flag. -/
theorem main_run (W : World) (L : OpenSSL) (argv : List String)
    (hv : ∀ t ∈ leading_flags argv, is_help_or_version t = false) :
    main W L argv
      = if file_arguments argv = [] then
          (1, if argv.length < 2 then [Event.stdout (print_usage (argv.headD "(null)"))]
              else [Event.stderr "Error: No files specified\n",
                    Event.stdout (print_usage (argv.headD "(null)"))])
        else
          (if (file_arguments argv).all (file_ok W L (requested_types (leading_flags argv)))
            then 0 else 1,
           (file_arguments argv).flatMap (file_events W L (requested_types (leading_flags argv)))) := by
  cases argv with
  | nil => simp [main, file_arguments]
  | cons p args =>
    have hv2 : ∀ t ∈ args.takeWhile is_flag, is_help_or_version t = false := by
      simpa [leading_flags] using hv
    have hlen := takeWhile_length_add_dropWhile is_flag args
    have hdrop := drop_takeWhile_length is_flag args
    cases args with
    | nil => simp [main, file_arguments]
    | cons a rest =>
      have hscan := scan_flags_eq p (a :: rest) 1 HASH_MD5 false hv2
      simp only [main, List.length_cons, List.headD_cons, List.drop_succ_cons, List.drop_zero,
        show ¬ (rest.length + 1 + 1 < 2) by omega, if_false, hscan, file_arguments, leading_flags,
        requested_types, all_requested, selected_algorithm, Bool.false_or, ge_iff_le]
      by_cases hnil : (a :: rest).dropWhile is_flag = []
      · have hge : rest.length + 1 + 1 ≤ 1 + ((a :: rest).takeWhile is_flag).length := by
          rw [hnil] at hlen
          simp only [List.length_nil, List.length_cons, Nat.add_zero] at hlen
          omega
        simp [hnil, hge]
      · have hlt : ¬ (rest.length + 1 + 1 ≤ 1 + ((a :: rest).takeWhile is_flag).length) := by
          have : 0 < ((a :: rest).dropWhile is_flag).length := List.length_pos.mpr hnil
          simp only [List.length_cons] at hlen
          omega
        rw [if_neg hlt, if_neg hnil, file_loop_eq]
        have hd : (p :: a :: rest).drop (1 + ((a :: rest).takeWhile is_flag).length)
            = (a :: rest).dropWhile is_flag := by
          rw [Nat.add_comm, List.drop_succ_cons]
          exact hdrop
        rw [hd]
        simp

/-! ## Lemmas on the read loop -/

/-- What a read delivers, and what is left and ahead afterwards, depends on the bytes
pending and the failures ahead only, not on the indicators. -/
theorem fread_same (n : Nat) (file file2 : FILE) (hp : file.pending = file2.pending)
    (hf : file.faults = file2.faults) :
    (fread n file).1 = (fread n file2).1
      ∧ (fread n file).2.pending = (fread n file2).2.pending
      ∧ (fread n file).2.faults = (fread n file2).2.faults := by
  unfold fread
  rw [hp, hf]
  cases file2.faults with
  | nil => exact ⟨rfl, rfl, rfl⟩
  | cons k rest =>
    by_cases hk : k < n ∧ k ≤ file2.pending.length
    · simp [hk]
    · simp [hk]

/-- A read that delivers something leaves less to deliver. -/
theorem fread_pending_lt (n : Nat) (file : FILE) (h : 0 < (fread n file).1.length) :
    (fread n file).2.pending.length < file.pending.length := by
  cases hfa : file.faults with
  | nil =>
    simp only [fread, hfa, List.length_take, List.length_drop] at h ⊢
    omega
  | cons k rest =>
    by_cases hk : k < n ∧ k ≤ file.pending.length
    · simp only [fread, hfa, hk, and_self, if_true, List.length_take, List.length_drop] at h ⊢
      omega
    · simp only [fread, hfa, hk, if_false, List.length_take, List.length_drop] at h ⊢
      omega

/-- Without failures ahead a read takes the next `n` bytes, and none lie ahead
afterwards. -/
theorem fread_no_faults (n : Nat) (file : FILE) (h : file.faults = []) :
    (fread n file).1 = file.pending.take n
      ∧ (fread n file).2.pending = file.pending.drop n
      ∧ (fread n file).2.faults = [] := by
  simp only [fread, h, and_self]

theorem read_loop_unfold {CTX : Type} (U : CTX → List Byte → CTX) (file : FILE) (ctx : CTX) :
    read_loop U file ctx
      = if 0 < (fread BUFFER_SIZE file).1.length then
          read_loop U (fread BUFFER_SIZE file).2 (U ctx (fread BUFFER_SIZE file).1)
        else (ctx, (fread BUFFER_SIZE file).2) := by
  rw [read_loop]

/-- The context after the loop depends on the bytes pending and the failures ahead
only, not on whether the stream ends in end-of-file or in a read error. -/
theorem read_loop_pending {CTX : Type} (U : CTX → List Byte → CTX) :
    ∀ (n : Nat) (file file2 : FILE) (ctx : CTX), file.pending.length = n →
      file.pending = file2.pending → file.faults = file2.faults →
      (read_loop U file ctx).1 = (read_loop U file2 ctx).1 := by
  intro n
  induction n using Nat.strong_induction_on with
  | _ n ih =>
    intro file file2 ctx hn hp hf
    rw [read_loop_unfold U file, read_loop_unfold U file2]
    obtain ⟨hch, hrest, hfa⟩ := fread_same BUFFER_SIZE file file2 hp hf
    rw [hch]
    by_cases hpos : 0 < (fread BUFFER_SIZE file2).1.length
    · rw [if_pos hpos, if_pos hpos]
      have hlt : (fread BUFFER_SIZE file).2.pending.length < n := by
        rw [← hn]
        exact fread_pending_lt BUFFER_SIZE file (by rw [hch]; exact hpos)
      exact ih _ hlt _ _ _ rfl hrest hfa
    · rw [if_neg hpos, if_neg hpos]

/-- The stream after the loop does not depend on the Update function or the context. -/
theorem read_loop_stream {CTX CTX2 : Type} (U : CTX → List Byte → CTX)
    (U2 : CTX2 → List Byte → CTX2) :
    ∀ (n : Nat) (file : FILE) (ctx : CTX) (ctx2 : CTX2), file.pending.length = n →
      (read_loop U file ctx).2 = (read_loop U2 file ctx2).2 := by
  intro n
  induction n using Nat.strong_induction_on with
  | _ n ih =>
    intro file ctx ctx2 hn
    rw [read_loop_unfold U file, read_loop_unfold U2 file]
    by_cases hpos : 0 < (fread BUFFER_SIZE file).1.length
    · rw [if_pos hpos, if_pos hpos]
      have hlt : (fread BUFFER_SIZE file).2.pending.length < n := by
        rw [← hn]
        exact fread_pending_lt BUFFER_SIZE file hpos
      exact ih _ hlt _ _ _ rfl
    · rw [if_neg hpos, if_neg hpos]

/-- With an Update that concatenates and no read failure on the way, the loop amounts
to one Update over everything the stream delivers, and to no Update when it delivers
nothing. -/
theorem read_loop_concat {CTX : Type} (U : CTX → List Byte → CTX)
    (hU : ∀ c a b, U (U c a) b = U c (a ++ b)) :
    ∀ (n : Nat) (file : FILE) (ctx : CTX), file.pending.length = n → file.faults = [] →
      (read_loop U file ctx).1 = if file.pending = [] then ctx else U ctx file.pending := by
  intro n
  induction n using Nat.strong_induction_on with
  | _ n ih =>
    intro file ctx hn hfa
    rw [read_loop_unfold U file]
    have h8 : 0 < BUFFER_SIZE := by decide
    obtain ⟨hch, hrest, hfa2⟩ := fread_no_faults BUFFER_SIZE file hfa
    by_cases hnil : file.pending = []
    · have hz : ¬ 0 < (fread BUFFER_SIZE file).1.length := by simp [hch, hnil]
      rw [if_neg hz, if_pos hnil]
    · have hlen : 0 < file.pending.length := List.length_pos.mpr hnil
      have hpos : 0 < (fread BUFFER_SIZE file).1.length := by
        rw [hch, List.length_take]; omega
      have hlt : (fread BUFFER_SIZE file).2.pending.length < n := by
        rw [← hn]
        exact fread_pending_lt BUFFER_SIZE file hpos
      rw [if_pos hpos, if_neg hnil, ih _ hlt _ _ rfl hfa2]
      have hsplit : (fread BUFFER_SIZE file).1 ++ (fread BUFFER_SIZE file).2.pending
          = file.pending := by
        rw [hch, hrest, List.take_append_drop]
      by_cases hr : (fread BUFFER_SIZE file).2.pending = []
      · rw [if_pos hr]
        rw [hr, List.append_nil] at hsplit
        rw [hsplit]
      · rw [if_neg hr, hU, hsplit]

theorem calculate_file_hash_concat (W : World) (L : OpenSSL) (hL : update_concatenates L)
    (f : String) (t : hash_type_t) (buf : Buffer)
    (hF : ∀ file, fopen W f = some file → file.faults = []) :
    calculate_file_hash W L f t buf = one_pass_result W L f t buf := by
  unfold calculate_file_hash one_pass_result
  cases hfo : fopen W f with
  | none => rfl
  | some file =>
    have hfa := hF file hfo
    obtain ⟨h1, h2, h3⟩ := hL
    cases t with
    | HASH_MD5 =>
      simp only [read_loop_concat L.MD5_Update h1 _ file _ rfl hfa, initial_digest,
        one_pass_digest]
      by_cases hnil : file.pending = [] <;> simp [hnil]
    | HASH_SHA1 =>
      simp only [read_loop_concat L.SHA1_Update h2 _ file _ rfl hfa, initial_digest,
        one_pass_digest]
      by_cases hnil : file.pending = [] <;> simp [hnil]
    | HASH_SHA256 =>
      simp only [read_loop_concat L.SHA256_Update h3 _ file _ rfl hfa, initial_digest,
        one_pass_digest]
      by_cases hnil : file.pending = [] <;> simp [hnil]

/-- No path of the sample file system has a read failure on the way. -/
theorem sampleWorld_no_faults (f : String) :
    ∀ file, fopen sampleWorld f = some file → file.faults = [] := by
  intro file h
  simp only [fopen, sampleWorld] at h
  split at h
  · exact absurd h (by simp)
  · rename_i ino hino
    split at h
    · have hi : ino.faults = [] := by
        repeat' split at hino
        all_goals first
          | (cases hino; rfl)
          | exact absurd hino (by simp)
      cases h
      exact hi
    · exact absurd h (by simp)

theorem sampleSSL_concatenates : update_concatenates sampleSSL :=
  ⟨fun c a b => List.append_assoc c a b, fun c a b => List.append_assoc c a b,
   fun c a b => List.append_assoc c a b⟩

theorem markingSSL_concatenates : update_concatenates markingSSL :=
  ⟨fun c a b => by simp [markingSSL], fun c a b => by simp [markingSSL],
   fun c a b => by simp [markingSSL]⟩

/-! ## Lemmas on the events of one file -/

theorem filterMap_flatMap {α β γ : Type} (q : β → Option γ) (g : α → List β) (l : List α) :
    (l.flatMap g).filterMap q = l.flatMap fun x => (g x).filterMap q := by
  induction l with
  | nil => rfl
  | cons a l ih => simp [List.flatMap_cons, List.filterMap_append, ih]

theorem flatMap_singleton_map {α β : Type} (g : α → β) (l : List α) :
    (l.flatMap fun x => [g x]) = l.map g := by
  induction l with
  | nil => rfl
  | cons a l ih => simp [List.flatMap_cons, ih]

theorem flatMap_ite_filter {α β : Type} (q : α → Bool) (g : α → β) (l : List α) :
    (l.flatMap fun x => if q x = true then [g x] else []) = (l.filter q).map g := by
  induction l with
  | nil => rfl
  | cons a l ih =>
    by_cases h : q a = true
    · simp [List.flatMap_cons, List.filter_cons, h, ih]
    · simp [List.flatMap_cons, List.filter_cons, h, ih]

/-- The four ways `is_valid_file` ends. -/
theorem is_valid_file_cases (W : World) (f : String) :
    (W.fs f = none ∧ is_valid_file W f = (0, []))
      ∨ (∃ ino, W.fs f = some ino ∧ ino.st_mode = FileType.directory
          ∧ is_valid_file W f
              = (0, [Event.stderr ("Error: '" ++ f ++ "' is a directory, not a file\n")]))
      ∨ (∃ ino, W.fs f = some ino ∧ ino.st_mode = FileType.special
          ∧ is_valid_file W f
              = (0, [Event.stderr ("Error: '" ++ f ++ "' is not a regular file\n")]))
      ∨ (∃ ino, W.fs f = some ino ∧ ino.st_mode = FileType.regular
          ∧ is_valid_file W f = (1, [])) := by
  unfold is_valid_file stat
  cases h : W.fs f with
  | none => left; exact ⟨rfl, rfl⟩
  | some ino =>
    right
    cases hm : ino.st_mode with
    | directory => left; exact ⟨ino, rfl, hm, by simp [S_ISDIR, hm]⟩
    | special => right; left; exact ⟨ino, rfl, hm, by simp [S_ISDIR, S_ISREG, hm]⟩
    | regular => right; right; exact ⟨ino, rfl, hm, by simp [S_ISDIR, S_ISREG, hm]⟩

/-- The two ways `calculate_file_hash` ends: it fails exactly when `fopen` does. -/
theorem calculate_file_hash_cases (W : World) (L : OpenSSL) (f : String) (t : hash_type_t)
    (buf : Buffer) :
    (fopen W f = none ∧ (calculate_file_hash W L f t buf).1 = -1
        ∧ (calculate_file_hash W L f t buf).2.2
            = [Event.stderr ("Error: Cannot open file '" ++ f ++ "'\n")])
      ∨ ((fopen W f).isSome = true ∧ (calculate_file_hash W L f t buf).1 = 0
          ∧ (calculate_file_hash W L f t buf).2.2 = []) := by
  unfold calculate_file_hash
  cases h : fopen W f with
  | none => left; exact ⟨rfl, rfl, rfl⟩
  | some file => right; cases t <;> exact ⟨rfl, rfl, rfl⟩

theorem validations_hash_events (W : World) (L : OpenSSL) (f : String) (t : hash_type_t) :
    validations (hash_events W L f t) = [] := by
  unfold hash_events validations
  rcases calculate_file_hash_cases W L f t W.uninit with ⟨_, h1, h2⟩ | ⟨_, h1, h2⟩ <;>
    simp [h1, h2]

theorem hash_calls_hash_events (W : World) (L : OpenSSL) (f : String) (t : hash_type_t) :
    hash_calls (hash_events W L f t) = [(f, t, (calculate_file_hash W L f t W.uninit).1)] := by
  unfold hash_events hash_calls
  rcases calculate_file_hash_cases W L f t W.uninit with ⟨_, h1, h2⟩ | ⟨_, h1, h2⟩ <;>
    simp [h1, h2]

theorem print_calls_hash_events (W : World) (L : OpenSSL) (f : String) (t : hash_type_t) :
    print_calls (hash_events W L f t)
      = if hashes W L f t = true then [(digest_length t, f, t)] else [] := by
  unfold hash_events print_calls hashes
  rcases calculate_file_hash_cases W L f t W.uninit with ⟨_, h1, h2⟩ | ⟨_, h1, h2⟩ <;>
    simp [h1, h2]

theorem stdout_of_hash_events (W : World) (L : OpenSSL) (f : String) (t : hash_type_t) :
    stdout_of (hash_events W L f t)
      = if hashes W L f t = true then [digest_line W L f t] else [] := by
  unfold hash_events stdout_of hashes digest_line
  rcases calculate_file_hash_cases W L f t W.uninit with ⟨_, h1, h2⟩ | ⟨_, h1, h2⟩ <;>
    simp [h1, h2]

theorem stderr_of_hash_events (W : World) (L : OpenSSL) (f : String) (t : hash_type_t) :
    stderr_of (hash_events W L f t)
      = if hashes W L f t = true then [] else ["Error: Cannot open file '" ++ f ++ "'\n"] := by
  unfold hash_events stderr_of hashes
  rcases calculate_file_hash_cases W L f t W.uninit with ⟨_, h1, h2⟩ | ⟨_, h1, h2⟩ <;>
    simp [h1, h2]

theorem validations_file_events (W : World) (L : OpenSSL) (types : List hash_type_t)
    (f : String) : validations (file_events W L types f) = [(f, (is_valid_file W f).1)] := by
  have hh : validations (types.flatMap (hash_events W L f)) = [] := by
    unfold validations
    rw [filterMap_flatMap]
    have : ∀ t, (hash_events W L f t).filterMap (fun e =>
        match e with
        | Event.is_valid_file f r => some (f, r)
        | _ => none) = [] := validations_hash_events W L f
    simp [this]
  unfold file_events
  unfold validations at hh ⊢
  rcases is_valid_file_cases W f with ⟨_, h⟩ | ⟨_, _, _, h⟩ | ⟨_, _, _, h⟩ | ⟨_, _, _, h⟩ <;>
    simp [h, List.filterMap_append, hh]

theorem hash_calls_file_events (W : World) (L : OpenSSL) (types : List hash_type_t)
    (f : String) :
    hash_calls (file_events W L types f)
      = if valid W f = true then
          types.map fun t => (f, t, (calculate_file_hash W L f t W.uninit).1)
        else [] := by
  have hh : hash_calls (types.flatMap (hash_events W L f))
      = types.map fun t => (f, t, (calculate_file_hash W L f t W.uninit).1) := by
    rw [← flatMap_singleton_map]
    unfold hash_calls
    rw [filterMap_flatMap]
    exact congrArg _ (funext (hash_calls_hash_events W L f))
  unfold file_events valid
  unfold hash_calls at hh ⊢
  rcases is_valid_file_cases W f with ⟨_, h⟩ | ⟨_, _, _, h⟩ | ⟨_, _, _, h⟩ | ⟨_, _, _, h⟩ <;>
    simp [h, List.filterMap_append, hh]

theorem print_calls_file_events (W : World) (L : OpenSSL) (types : List hash_type_t)
    (f : String) :
    print_calls (file_events W L types f)
      = if valid W f = true then
          (types.filter (hashes W L f)).map fun t => (digest_length t, f, t)
        else [] := by
  have hh : print_calls (types.flatMap (hash_events W L f))
      = (types.filter (hashes W L f)).map fun t => (digest_length t, f, t) := by
    rw [← flatMap_ite_filter]
    unfold print_calls
    rw [filterMap_flatMap]
    exact congrArg _ (funext (print_calls_hash_events W L f))
  unfold file_events valid
  unfold print_calls at hh ⊢
  rcases is_valid_file_cases W f with ⟨_, h⟩ | ⟨_, _, _, h⟩ | ⟨_, _, _, h⟩ | ⟨_, _, _, h⟩ <;>
    simp [h, List.filterMap_append, hh]

theorem stdout_of_file_events (W : World) (L : OpenSSL) (types : List hash_type_t)
    (f : String) :
    stdout_of (file_events W L types f)
      = if valid W f = true then (types.filter (hashes W L f)).map (digest_line W L f)
        else [] := by
  have hh : stdout_of (types.flatMap (hash_events W L f))
      = (types.filter (hashes W L f)).map (digest_line W L f) := by
    rw [← flatMap_ite_filter]
    unfold stdout_of
    rw [filterMap_flatMap]
    exact congrArg _ (funext (stdout_of_hash_events W L f))
  unfold file_events valid
  unfold stdout_of at hh ⊢
  rcases is_valid_file_cases W f with ⟨_, h⟩ | ⟨_, _, _, h⟩ | ⟨_, _, _, h⟩ | ⟨_, _, _, h⟩ <;>
    simp [h, List.filterMap_append, hh]

theorem hashes_iff_openable (W : World) (L : OpenSSL) (f : String) (t : hash_type_t)
    (ino : Inode) (h : W.fs f = some ino) : hashes W L f t = ino.openable := by
  unfold hashes
  rcases calculate_file_hash_cases W L f t W.uninit with ⟨ho, h1, _⟩ | ⟨ho, h1, _⟩
  · rw [h1]
    simp only [fopen, h] at ho
    cases hop : ino.openable with
    | true => simp [hop] at ho
    | false => decide
  · rw [h1]
    simp only [fopen, h] at ho
    cases hop : ino.openable with
    | true => decide
    | false => simp [hop] at ho

theorem stderr_of_file_events (W : World) (L : OpenSSL) (types : List hash_type_t)
    (f : String) : stderr_of (file_events W L types f) = diagnostics W types f := by
  unfold file_events diagnostics
  rcases is_valid_file_cases W f with ⟨h0, h⟩ | ⟨ino, h0, hm, h⟩ | ⟨ino, h0, hm, h⟩
      | ⟨ino, h0, hm, h⟩
  · simp [h, h0, stderr_of]
  · simp [h, h0, hm, stderr_of]
  · simp [h, h0, hm, stderr_of]
  · have hh : stderr_of (types.flatMap (hash_events W L f))
        = if ino.openable = true then []
          else types.map fun _ => "Error: Cannot open file '" ++ f ++ "'\n" := by
      unfold stderr_of
      rw [filterMap_flatMap]
      have : ∀ t, (hash_events W L f t).filterMap (fun e =>
          match e with
          | Event.stderr s => some s
          | _ => none)
            = if ino.openable = true then [] else ["Error: Cannot open file '" ++ f ++ "'\n"] := by
        intro t
        have := stderr_of_hash_events W L f t
        rw [hashes_iff_openable W L f t ino h0] at this
        exact this
      simp only [this]
      cases ino.openable with
      | true => simp
      | false => simp [flatMap_singleton_map]
    unfold stderr_of at hh ⊢
    simp [h, h0, hm, List.filterMap_append, hh]

/-! ## Lemmas on the whole run -/

/-- With a file argument, the run is the file loop over the file arguments. -/
theorem main_files (W : World) (L : OpenSSL) (argv : List String)
    (hv : ∀ t ∈ leading_flags argv, is_help_or_version t = false)
    (hfiles : file_arguments argv ≠ []) :
    main W L argv
      = (if (file_arguments argv).all (file_ok W L (requested_types (leading_flags argv)))
          then 0 else 1,
         (file_arguments argv).flatMap
           (file_events W L (requested_types (leading_flags argv)))) := by
  rw [main_run W L argv hv, if_neg hfiles]

/-- Without a file argument, the run prints the usage text and returns 1. -/
theorem main_no_files (W : World) (L : OpenSSL) (argv : List String)
    (hv : ∀ t ∈ leading_flags argv, is_help_or_version t = false)
    (hnil : file_arguments argv = []) :
    main W L argv
      = (1, if argv.length < 2 then [Event.stdout (print_usage (argv.headD "(null)"))]
            else [Event.stderr "Error: No files specified\n",
                  Event.stdout (print_usage (argv.headD "(null)"))]) := by
  rw [main_run W L argv hv, if_pos hnil]

/-- Any view of the trace that ignores printed text is the concatenation of the views
of the rounds of the file loop. -/
theorem main_calls {γ : Type} (W : World) (L : OpenSSL) (argv : List String)
    (hv : ∀ t ∈ leading_flags argv, is_help_or_version t = false)
    (q : Event → Option γ) (hout : ∀ s, q (Event.stdout s) = none)
    (herr : ∀ s, q (Event.stderr s) = none) :
    (main W L argv).2.filterMap q
      = (file_arguments argv).flatMap fun f =>
          (file_events W L (requested_types (leading_flags argv)) f).filterMap q := by
  by_cases hnil : file_arguments argv = []
  · rw [main_no_files W L argv hv hnil, hnil]
    by_cases h2 : argv.length < 2 <;> simp [h2, hout, herr]
  · rw [main_files W L argv hv hnil, filterMap_flatMap]

theorem main_validations (W : World) (L : OpenSSL) (argv : List String)
    (hv : ∀ t ∈ leading_flags argv, is_help_or_version t = false) :
    validations (main W L argv).2
      = (file_arguments argv).map fun f => (f, (is_valid_file W f).1) := by
  unfold validations
  rw [main_calls W L argv hv _ (fun _ => rfl) (fun _ => rfl), ← flatMap_singleton_map]
  exact congrArg _ (funext (validations_file_events W L _))

theorem main_hash_calls (W : World) (L : OpenSSL) (argv : List String)
    (hv : ∀ t ∈ leading_flags argv, is_help_or_version t = false) :
    hash_calls (main W L argv).2
      = ((file_arguments argv).filter (valid W)).flatMap fun f =>
          (requested_types (leading_flags argv)).map fun t =>
            (f, t, (calculate_file_hash W L f t W.uninit).1) := by
  unfold hash_calls
  rw [main_calls W L argv hv _ (fun _ => rfl) (fun _ => rfl)]
  have := hash_calls_file_events W L (requested_types (leading_flags argv))
  unfold hash_calls at this
  simp only [this]
  generalize file_arguments argv = files
  induction files with
  | nil => rfl
  | cons f rest ih =>
    by_cases h : valid W f = true
    · simp [List.flatMap_cons, List.filter_cons, h, ih]
    · simp [List.flatMap_cons, List.filter_cons, h, ih]

theorem main_print_calls (W : World) (L : OpenSSL) (argv : List String)
    (hv : ∀ t ∈ leading_flags argv, is_help_or_version t = false) :
    print_calls (main W L argv).2
      = ((file_arguments argv).filter (valid W)).flatMap fun f =>
          ((requested_types (leading_flags argv)).filter (hashes W L f)).map fun t =>
            (digest_length t, f, t) := by
  unfold print_calls
  rw [main_calls W L argv hv _ (fun _ => rfl) (fun _ => rfl)]
  have := print_calls_file_events W L (requested_types (leading_flags argv))
  unfold print_calls at this
  simp only [this]
  generalize file_arguments argv = files
  induction files with
  | nil => rfl
  | cons f rest ih =>
    by_cases h : valid W f = true
    · simp [List.flatMap_cons, List.filter_cons, h, ih]
    · simp [List.flatMap_cons, List.filter_cons, h, ih]

theorem main_text {γ : Type} (W : World) (L : OpenSSL) (argv : List String)
    (hv : ∀ t ∈ leading_flags argv, is_help_or_version t = false)
    (hfiles : file_arguments argv ≠ []) (q : Event → Option γ) :
    (main W L argv).2.filterMap q
      = (file_arguments argv).flatMap fun f =>
          (file_events W L (requested_types (leading_flags argv)) f).filterMap q := by
  rw [main_files W L argv hv hfiles, filterMap_flatMap]

theorem main_stdout (W : World) (L : OpenSSL) (argv : List String)
    (hv : ∀ t ∈ leading_flags argv, is_help_or_version t = false)
    (hfiles : file_arguments argv ≠ []) :
    stdout_of (main W L argv).2
      = ((file_arguments argv).filter (valid W)).flatMap fun f =>
          ((requested_types (leading_flags argv)).filter (hashes W L f)).map
            (digest_line W L f) := by
  unfold stdout_of
  rw [main_text W L argv hv hfiles]
  have := stdout_of_file_events W L (requested_types (leading_flags argv))
  unfold stdout_of at this
  simp only [this]
  generalize file_arguments argv = files
  induction files with
  | nil => rfl
  | cons f rest ih =>
    by_cases h : valid W f = true
    · simp [List.flatMap_cons, List.filter_cons, h, ih]
    · simp [List.flatMap_cons, List.filter_cons, h, ih]

theorem main_stderr (W : World) (L : OpenSSL) (argv : List String)
    (hv : ∀ t ∈ leading_flags argv, is_help_or_version t = false)
    (hfiles : file_arguments argv ≠ []) :
    stderr_of (main W L argv).2
      = (file_arguments argv).flatMap (diagnostics W (requested_types (leading_flags argv))) := by
  unfold stderr_of
  rw [main_text W L argv hv hfiles]
  have := stderr_of_file_events W L (requested_types (leading_flags argv))
  unfold stderr_of at this
  simp only [this]

theorem main_exit_code (W : World) (L : OpenSSL) (argv : List String)
    (hv : ∀ t ∈ leading_flags argv, is_help_or_version t = false)
    (hfiles : file_arguments argv ≠ []) :
    (main W L argv).1
      = if ∀ f ∈ file_arguments argv, (is_valid_file W f).1 ≠ 0
            ∧ ∀ t ∈ requested_types (leading_flags argv),
                (calculate_file_hash W L f t W.uninit).1 = 0
        then 0 else 1 := by
  rw [main_files W L argv hv hfiles]
  simp only [List.all_eq_true, file_ok, decide_eq_true_eq]

/-- The return value of `calculate_file_hash` in terms of `fopen`. -/
theorem calculate_file_hash_ret (W : World) (L : OpenSSL) (f : String) (t : hash_type_t)
    (buf : Buffer) :
    (calculate_file_hash W L f t buf).1 = if (fopen W f).isSome = true then 0 else -1 := by
  rcases calculate_file_hash_cases W L f t buf with ⟨ho, h1, _⟩ | ⟨ho, h1, _⟩
  · rw [h1, ho]; rfl
  · rw [h1, if_pos ho]

/-! ## The properties -/

/-- C3: `print_hash` writes exactly `<NAME> (<hex>) = <filename>` and a newline, where
`<NAME>` is MD5, SHA1 or SHA256 for the respective algorithm and `<hex>` has
`2 * length` characters, all of them lowercase hexadecimal digits; characters `2i` and
`2i+1` are the high and the low nibble of byte `i`, and decoding `<hex>` gives the
bytes `hash[0..length)` back in order. -/
theorem print_hash_format (hash : Buffer) (length : Nat) (filename : String)
    (type : hash_type_t) :
    print_hash hash length filename type
        = get_hash_name type ++ " (" ++ String.mk (hexdigest hash length) ++ ") = "
            ++ filename ++ "\n"
      ∧ (get_hash_name HASH_MD5 = "MD5" ∧ get_hash_name HASH_SHA1 = "SHA1"
          ∧ get_hash_name HASH_SHA256 = "SHA256")
      ∧ (hexdigest hash length).length = 2 * length
      ∧ (∀ c ∈ hexdigest hash length, c ∈ hex_alphabet)
      ∧ (∀ i : Fin length,
          (hexdigest hash length).get? (2 * i.val) = some (nibble_char ((hash i.val).val / 16))
            ∧ (hexdigest hash length).get? (2 * i.val + 1)
                = some (nibble_char ((hash i.val).val % 16)))
      ∧ decode_hex (hexdigest hash length) = (List.range length).map fun i => (hash i).val := by
  refine ⟨?_, ⟨rfl, rfl, rfl⟩, hexdigest_length hash length, hexdigest_mem hash length,
    fun i => hexdigest_get hash length i.val i.isLt, decode_hexdigest hash length⟩
  unfold print_hash
  rw [hex_loop_eq]

/-- C1: with at least one file argument and no help or version flag in the flag
prefix, `main` returns 0 exactly when every file argument passes `is_valid_file` and
every requested `calculate_file_hash` call returns 0, and returns 1 otherwise.  The
calls made are: `is_valid_file` once for every file argument, and
`calculate_file_hash` for every valid file once per requested algorithm (one in single
mode, three in `--all` mode). -/
theorem main_exit_status (W : World) (L : OpenSSL) (argv : List String)
    (hfiles : file_arguments argv ≠ [])
    (hv : ∀ t ∈ leading_flags argv, is_help_or_version t = false) :
    ((main W L argv).1 = 0 ↔
        (∀ c ∈ validations (main W L argv).2, c.2 ≠ 0)
          ∧ (∀ c ∈ hash_calls (main W L argv).2, c.2.2 = 0))
      ∧ ((main W L argv).1 ≠ 0 → (main W L argv).1 = 1)
      ∧ validations (main W L argv).2
          = (file_arguments argv).map (fun f => (f, (is_valid_file W f).1))
      ∧ hash_calls (main W L argv).2
          = ((file_arguments argv).filter (valid W)).flatMap (fun f =>
              (requested_types (leading_flags argv)).map fun t =>
                (f, t, (calculate_file_hash W L f t W.uninit).1))
      ∧ (requested_types (leading_flags argv)).length
          = (if all_requested (leading_flags argv) = true then 3 else 1) := by
  have hcode := main_exit_code W L argv hv hfiles
  refine ⟨?_, ?_, main_validations W L argv hv, main_hash_calls W L argv hv, ?_⟩
  · rw [main_validations W L argv hv, main_hash_calls W L argv hv, hcode]
    constructor
    · intro h
      have hall : ∀ f ∈ file_arguments argv, (is_valid_file W f).1 ≠ 0
          ∧ ∀ t ∈ requested_types (leading_flags argv),
              (calculate_file_hash W L f t W.uninit).1 = 0 := by
        by_contra hc
        rw [if_neg hc] at h
        exact absurd h (by decide)
      constructor
      · intro c hc
        obtain ⟨f, hf, rfl⟩ := List.mem_map.mp hc
        exact (hall f hf).1
      · intro c hc
        obtain ⟨f, hf, hc2⟩ := List.mem_flatMap.mp hc
        obtain ⟨t, ht, rfl⟩ := List.mem_map.mp hc2
        exact (hall f (List.mem_of_mem_filter hf)).2 t ht
    · rintro ⟨h1, h2⟩
      rw [if_pos]
      intro f hf
      have hvf : (is_valid_file W f).1 ≠ 0 := h1 (f, _) (List.mem_map.mpr ⟨f, hf, rfl⟩)
      refine ⟨hvf, fun t ht => ?_⟩
      have hmem : f ∈ (file_arguments argv).filter (valid W) :=
        List.mem_filter.mpr ⟨hf, by simp [valid, hvf]⟩
      exact h2 (f, t, _) (List.mem_flatMap.mpr ⟨f, hmem, List.mem_map.mpr ⟨t, ht, rfl⟩⟩)
  · rw [hcode]
    split
    · intro h; exact absurd rfl h
    · intro _; rfl
  · unfold requested_types
    cases all_requested (leading_flags argv) <;> rfl

/-- C1 at `filehash -a a.txt b.txt`: both files are valid and readable, the exit
status is 0. -/
theorem main_exit_status_witness :
    file_arguments ["filehash", "-a", "a.txt", "b.txt"] ≠ []
      ∧ (main sampleWorld sampleSSL ["filehash", "-a", "a.txt", "b.txt"]).1 = 0
      ∧ (hash_calls (main sampleWorld sampleSSL ["filehash", "-a", "a.txt", "b.txt"]).2).length
          = 6 := by
  have h := main_exit_status sampleWorld sampleSSL ["filehash", "-a", "a.txt", "b.txt"]
    (by decide) (by decide)
  have hcalls := h.2.2.2.1
  simp only [calculate_file_hash_ret] at hcalls
  refine ⟨by decide, h.1.mpr ⟨?_, ?_⟩, ?_⟩
  · rw [h.2.2.1]; decide
  · rw [hcalls]; decide
  · rw [hcalls]; decide

/-- C10: when no file argument remains after the flags (and the flags hold no help or
version flag), `main` prints the usage text to standard output and nothing else there,
returns 1, and calls neither `is_valid_file` nor `calculate_file_hash` nor
`print_hash`. -/
theorem main_usage_error (W : World) (L : OpenSSL) (argv : List String)
    (hnil : file_arguments argv = [])
    (hv : ∀ t ∈ leading_flags argv, is_help_or_version t = false) :
    (main W L argv).1 = 1
      ∧ stdout_of (main W L argv).2 = [print_usage (argv.headD "(null)")]
      ∧ validations (main W L argv).2 = []
      ∧ hash_calls (main W L argv).2 = []
      ∧ print_calls (main W L argv).2 = [] := by
  rw [main_no_files W L argv hv hnil]
  by_cases h2 : argv.length < 2 <;>
    simp [h2, stdout_of, validations, hash_calls, print_calls]

/-- C10 at `filehash -s -a`: flags only. -/
theorem main_usage_error_witness :
    file_arguments ["filehash", "-s", "-a"] = []
      ∧ (main sampleWorld sampleSSL ["filehash", "-s", "-a"]).1 = 1
      ∧ stdout_of (main sampleWorld sampleSSL ["filehash", "-s", "-a"]).2
          = [print_usage "filehash"] :=
  ⟨by decide,
   (main_usage_error sampleWorld sampleSSL ["filehash", "-s", "-a"] (by decide) (by decide)).1,
   (main_usage_error sampleWorld sampleSSL ["filehash", "-s", "-a"] (by decide) (by decide)).2.1⟩

/-- C2: when the flag prefix holds no help or version flag, the flag loop of `main`
ends at the first token that is not a recognised flag, with `file_start_index` that
token's index; the file arguments are that token and every token after it, in order,
and they are exactly the names `main` passes to `is_valid_file`; the algorithms used
are those selected by the flag prefix alone.  For `file.txt -s other.txt` the three
names `file.txt`, `-s`, `other.txt` are processed, each with MD5. -/
theorem flag_scan_stops_at_first_file (W : World) (L : OpenSSL) (argv : List String)
    (hv : ∀ t ∈ leading_flags argv, is_help_or_version t = false) :
    scan_flags (argv.headD "(null)") (argv.drop 1) 1 HASH_MD5 false 1
        = Scan.files (selected_algorithm (leading_flags argv)) (all_requested (leading_flags argv))
            (1 + (leading_flags argv).length)
      ∧ argv.drop 1 = leading_flags argv ++ file_arguments argv
      ∧ (∀ t ∈ leading_flags argv, is_flag t = true)
      ∧ (∀ x, (file_arguments argv).head? = some x → is_flag x = false)
      ∧ argv.drop (1 + (leading_flags argv).length) = file_arguments argv
      ∧ (validations (main W L argv).2).map Prod.fst = file_arguments argv
      ∧ (∀ c ∈ hash_calls (main W L argv).2, c.2.1 ∈ requested_types (leading_flags argv))
      ∧ (validations (main W L ["filehash", "file.txt", "-s", "other.txt"]).2).map Prod.fst
          = ["file.txt", "-s", "other.txt"]
      ∧ (∀ c ∈ hash_calls (main W L ["filehash", "file.txt", "-s", "other.txt"]).2,
          c.2.1 = HASH_MD5) := by
  have hex : ∀ t ∈ leading_flags ["filehash", "file.txt", "-s", "other.txt"],
      is_help_or_version t = false := by decide
  refine ⟨?_, ?_, ?_, ?_, ?_, ?_, ?_, ?_, ?_⟩
  · have h := scan_flags_eq (argv.headD "(null)") (argv.drop 1) 1 HASH_MD5 false hv
    simpa [selected_algorithm, all_requested, leading_flags] using h
  · exact (List.takeWhile_append_dropWhile is_flag (argv.drop 1)).symm
  · intro t ht
    exact (List.mem_takeWhile_imp ht)
  · intro x hx
    have h := List.head?_dropWhile_not is_flag (argv.drop 1)
    unfold file_arguments at hx
    rw [hx] at h
    simpa using h
  · rw [← List.drop_drop]
    exact drop_takeWhile_length is_flag (argv.drop 1)
  · rw [main_validations W L argv hv, List.map_map]
    exact List.map_id _
  · intro c hc
    rw [main_hash_calls W L argv hv] at hc
    obtain ⟨f, _, hc2⟩ := List.mem_flatMap.mp hc
    obtain ⟨t, ht, rfl⟩ := List.mem_map.mp hc2
    exact ht
  · rw [main_validations W L _ hex, List.map_map]
    exact List.map_id _
  · intro c hc
    rw [main_hash_calls W L _ hex] at hc
    obtain ⟨f, _, hc2⟩ := List.mem_flatMap.mp hc
    obtain ⟨t, ht, rfl⟩ := List.mem_map.mp hc2
    have hty : requested_types (leading_flags ["filehash", "file.txt", "-s", "other.txt"])
        = [HASH_MD5] := by decide
    rw [hty] at ht
    simpa using ht

/-- C2 at `filehash -S a.txt -s b.txt`: the scan stops at index 2 with SHA256 selected
and the three tokens from `a.txt` on are the file arguments. -/
theorem flag_scan_stops_at_first_file_witness :
    scan_flags "filehash" ["-S", "a.txt", "-s", "b.txt"] 1 HASH_MD5 false 1
        = Scan.files HASH_SHA256 false 2
      ∧ (validations (main sampleWorld sampleSSL ["filehash", "-S", "a.txt", "-s", "b.txt"]).2).map
          Prod.fst = ["a.txt", "-s", "b.txt"] :=
  ⟨(flag_scan_stops_at_first_file sampleWorld sampleSSL
      ["filehash", "-S", "a.txt", "-s", "b.txt"] (by decide)).1,
   (flag_scan_stops_at_first_file sampleWorld sampleSSL
      ["filehash", "-S", "a.txt", "-s", "b.txt"] (by decide)).2.2.2.2.2.1⟩

/-- C6: when the flag prefix holds neither `-a` / `--all` nor a help or version flag,
the flag loop leaves `hash_type` at the algorithm of the last single-algorithm flag of
the prefix (MD5 when there is none); `calculate_file_hash` is called exactly once for
every valid file argument, in order, with that algorithm; and every `print_hash` call
gets that algorithm together with its digest length, 16, 20 or 32. -/
theorem single_mode_uses_last_flag (W : World) (L : OpenSSL) (argv : List String)
    (hv : ∀ t ∈ leading_flags argv, is_help_or_version t = false)
    (hsingle : all_requested (leading_flags argv) = false) :
    scan_flags (argv.headD "(null)") (argv.drop 1) 1 HASH_MD5 false 1
        = Scan.files (selected_algorithm (leading_flags argv)) false
            (1 + (leading_flags argv).length)
      ∧ hash_calls (main W L argv).2
          = ((file_arguments argv).filter (valid W)).map (fun f =>
              (f, selected_algorithm (leading_flags argv),
               (calculate_file_hash W L f (selected_algorithm (leading_flags argv)) W.uninit).1))
      ∧ print_calls (main W L argv).2
          = (((file_arguments argv).filter (valid W)).filter
              (fun f => hashes W L f (selected_algorithm (leading_flags argv)))).map (fun f =>
                (digest_length (selected_algorithm (leading_flags argv)), f,
                 selected_algorithm (leading_flags argv)))
      ∧ ((selected_algorithm (leading_flags argv) = HASH_MD5
            ∧ digest_length (selected_algorithm (leading_flags argv)) = 16)
          ∨ (selected_algorithm (leading_flags argv) = HASH_SHA1
            ∧ digest_length (selected_algorithm (leading_flags argv)) = 20)
          ∨ (selected_algorithm (leading_flags argv) = HASH_SHA256
            ∧ digest_length (selected_algorithm (leading_flags argv)) = 32)) := by
  have hty : requested_types (leading_flags argv) = [selected_algorithm (leading_flags argv)] := by
    simp [requested_types, hsingle]
  refine ⟨?_, ?_, ?_, ?_⟩
  · have h := scan_flags_eq (argv.headD "(null)") (argv.drop 1) 1 HASH_MD5 false hv
    have hs : ((argv.drop 1).takeWhile is_flag).any is_all_flag = false := hsingle
    rw [hs] at h
    simpa [selected_algorithm, leading_flags] using h
  · rw [main_hash_calls W L argv hv, hty]
    simp only [List.map_cons, List.map_nil]
    exact flatMap_singleton_map _ _
  · rw [main_print_calls W L argv hv, hty]
    rw [← flatMap_ite_filter]
    congr 1
    funext f
    by_cases h : hashes W L f (selected_algorithm (leading_flags argv)) = true
    · simp [List.filter_cons, h]
    · simp [List.filter_cons, h]
  · cases selected_algorithm (leading_flags argv)
    · exact Or.inl ⟨rfl, rfl⟩
    · exact Or.inr (Or.inl ⟨rfl, rfl⟩)
    · exact Or.inr (Or.inr ⟨rfl, rfl⟩)

/-- C6 at `filehash -S -m -s a.txt nope b.txt`: the last flag selects SHA1, and the two
valid files get one `print_hash` call each, with length 20. -/
theorem single_mode_uses_last_flag_witness :
    all_requested (leading_flags ["filehash", "-S", "-m", "-s", "a.txt", "nope", "b.txt"]) = false
      ∧ print_calls
          (main sampleWorld sampleSSL ["filehash", "-S", "-m", "-s", "a.txt", "nope", "b.txt"]).2
        = [(20, "a.txt", HASH_SHA1), (20, "b.txt", HASH_SHA1)] := by
  refine ⟨by decide, ?_⟩
  have h := (single_mode_uses_last_flag sampleWorld sampleSSL
    ["filehash", "-S", "-m", "-s", "a.txt", "nope", "b.txt"] (by decide) (by decide)).2.2.1
  rw [h]
  simp only [hashes, calculate_file_hash_ret]
  decide

theorem digest_line_eq (W : World) (L : OpenSSL) (f : String) (t : hash_type_t) :
    digest_line W L f t
      = get_hash_name t ++ " ("
          ++ String.mk (hexdigest (calculate_file_hash W L f t W.uninit).2.1 (digest_length t))
          ++ ") = " ++ f ++ "\n" := by
  unfold digest_line print_hash
  rw [hex_loop_eq]

theorem is_valid_file_of_valid (W : World) (f : String) (h : valid W f = true) :
    is_valid_file W f = (1, []) := by
  unfold valid at h
  rcases is_valid_file_cases W f with ⟨_, h1⟩ | ⟨_, _, _, h1⟩ | ⟨_, _, _, h1⟩ | ⟨_, _, _, h1⟩
  · simp [h1] at h
  · simp [h1] at h
  · simp [h1] at h
  · exact h1

theorem hash_events_of_hashes (W : World) (L : OpenSSL) (f : String) (t : hash_type_t)
    (h : hashes W L f t = true) :
    hash_events W L f t
      = [Event.calculate_file_hash f t 0, Event.print_hash (digest_length t) f t,
         Event.stdout (digest_line W L f t)] := by
  unfold hashes at h
  have h0 : (calculate_file_hash W L f t W.uninit).1 = 0 := by simpa using h
  unfold hash_events digest_line
  rcases calculate_file_hash_cases W L f t W.uninit with ⟨_, h1, _⟩ | ⟨_, h1, h2⟩
  · rw [h1] at h0; exact absurd h0 (by decide)
  · simp [h1, h2]

/-- C7: when the flag prefix holds `-a` or `--all` (anywhere in it) and no help or
version flag, the trace of `main` is the concatenation, in argument order, of the
rounds of the file arguments with the three algorithms requested; and the round of a
file argument that validates and hashes successfully consists of the `is_valid_file`
call followed by three groups, for MD5, SHA1 and SHA256 in this order, each made of
one `calculate_file_hash` call on that file name, the `print_hash` call with length
16, 20 and 32 respectively, and the line printed: exactly three output lines, of the
shape `<NAME> (<hex>) = <filename>`. -/
theorem all_mode_three_lines (W : World) (L : OpenSSL) (argv : List String) (f : String)
    (hv : ∀ t ∈ leading_flags argv, is_help_or_version t = false)
    (hall : all_requested (leading_flags argv) = true)
    (hf : f ∈ file_arguments argv)
    (hvalid : valid W f = true)
    (hhash : ∀ t, hashes W L f t = true) :
    (main W L argv).2
        = (file_arguments argv).flatMap (file_events W L [HASH_MD5, HASH_SHA1, HASH_SHA256])
      ∧ file_events W L [HASH_MD5, HASH_SHA1, HASH_SHA256] f
          = [Event.is_valid_file f 1,
             Event.calculate_file_hash f HASH_MD5 0,
             Event.print_hash 16 f HASH_MD5,
             Event.stdout (digest_line W L f HASH_MD5),
             Event.calculate_file_hash f HASH_SHA1 0,
             Event.print_hash 20 f HASH_SHA1,
             Event.stdout (digest_line W L f HASH_SHA1),
             Event.calculate_file_hash f HASH_SHA256 0,
             Event.print_hash 32 f HASH_SHA256,
             Event.stdout (digest_line W L f HASH_SHA256)]
      ∧ stdout_of (file_events W L [HASH_MD5, HASH_SHA1, HASH_SHA256] f)
          = [digest_line W L f HASH_MD5, digest_line W L f HASH_SHA1,
             digest_line W L f HASH_SHA256]
      ∧ digest_line W L f HASH_MD5
          = "MD5 (" ++ String.mk (hexdigest (calculate_file_hash W L f HASH_MD5 W.uninit).2.1 16)
              ++ ") = " ++ f ++ "\n"
      ∧ digest_line W L f HASH_SHA1
          = "SHA1 (" ++ String.mk (hexdigest (calculate_file_hash W L f HASH_SHA1 W.uninit).2.1 20)
              ++ ") = " ++ f ++ "\n"
      ∧ digest_line W L f HASH_SHA256
          = "SHA256 ("
              ++ String.mk (hexdigest (calculate_file_hash W L f HASH_SHA256 W.uninit).2.1 32)
              ++ ") = " ++ f ++ "\n" := by
  have hty : requested_types (leading_flags argv) = [HASH_MD5, HASH_SHA1, HASH_SHA256] := by
    simp [requested_types, hall]
  have hfiles : file_arguments argv ≠ [] := List.ne_nil_of_mem hf
  have hround : file_events W L [HASH_MD5, HASH_SHA1, HASH_SHA256] f
      = [Event.is_valid_file f 1,
         Event.calculate_file_hash f HASH_MD5 0,
         Event.print_hash 16 f HASH_MD5,
         Event.stdout (digest_line W L f HASH_MD5),
         Event.calculate_file_hash f HASH_SHA1 0,
         Event.print_hash 20 f HASH_SHA1,
         Event.stdout (digest_line W L f HASH_SHA1),
         Event.calculate_file_hash f HASH_SHA256 0,
         Event.print_hash 32 f HASH_SHA256,
         Event.stdout (digest_line W L f HASH_SHA256)] := by
    unfold file_events
    rw [is_valid_file_of_valid W f hvalid]
    simp only [List.flatMap_cons, List.flatMap_nil, hash_events_of_hashes W L f _ (hhash _),
      digest_length]
    rfl
  refine ⟨?_, hround, ?_, digest_line_eq W L f HASH_MD5, digest_line_eq W L f HASH_SHA1,
    digest_line_eq W L f HASH_SHA256⟩
  · rw [main_files W L argv hv hfiles, hty]
  · rw [hround]; rfl

/-- C7 at `filehash -s --all a.txt`: three lines for `a.txt`, MD5 first. -/
theorem all_mode_three_lines_witness :
    all_requested (leading_flags ["filehash", "-s", "--all", "a.txt"]) = true
      ∧ stdout_of (main sampleWorld sampleSSL ["filehash", "-s", "--all", "a.txt"]).2
          = [digest_line sampleWorld sampleSSL "a.txt" HASH_MD5,
             digest_line sampleWorld sampleSSL "a.txt" HASH_SHA1,
             digest_line sampleWorld sampleSSL "a.txt" HASH_SHA256] := by
  have h := all_mode_three_lines sampleWorld sampleSSL ["filehash", "-s", "--all", "a.txt"]
    "a.txt" (by decide) (by decide) (by decide) (by decide)
    (fun t => by simp only [hashes, calculate_file_hash_ret]; decide)
  refine ⟨by decide, ?_⟩
  rw [h.1, show file_arguments ["filehash", "-s", "--all", "a.txt"] = ["a.txt"] by decide]
  simp only [List.flatMap_cons, List.flatMap_nil, List.append_nil]
  exact h.2.2.1

/-- C8: (with a file argument and no help or version flag in the flag prefix) `main`
works through the file arguments in the order given: its trace is the concatenation of
their rounds, and `is_valid_file` is called for each of them, in order.  A file that
fails `is_valid_file` makes the exit status 1 and no `calculate_file_hash` call is made
for it.  Standard output holds exactly the digest lines of the valid file arguments, in
argument order, one for each requested algorithm whose `calculate_file_hash` call
returned 0. -/
theorem mixed_files_in_order (W : World) (L : OpenSSL) (argv : List String)
    (hv : ∀ t ∈ leading_flags argv, is_help_or_version t = false)
    (hfiles : file_arguments argv ≠ []) :
    (main W L argv).2
        = (file_arguments argv).flatMap (file_events W L (requested_types (leading_flags argv)))
      ∧ (validations (main W L argv).2).map Prod.fst = file_arguments argv
      ∧ (∀ f ∈ file_arguments argv, valid W f = false →
          (main W L argv).1 = 1
            ∧ hash_calls (file_events W L (requested_types (leading_flags argv)) f) = []
            ∧ ∀ c ∈ hash_calls (main W L argv).2, c.1 ≠ f)
      ∧ stdout_of (main W L argv).2
          = ((file_arguments argv).filter (valid W)).flatMap (fun f =>
              ((requested_types (leading_flags argv)).filter (hashes W L f)).map
                (digest_line W L f)) := by
  refine ⟨?_, ?_, ?_, main_stdout W L argv hv hfiles⟩
  · rw [main_files W L argv hv hfiles]
  · rw [main_validations W L argv hv, List.map_map]
    exact List.map_id _
  · intro f hf hinv
    refine ⟨?_, ?_, ?_⟩
    · rw [main_exit_code W L argv hv hfiles, if_neg]
      intro hall
      have := (hall f hf).1
      simp [valid] at hinv
      exact this hinv
    · rw [hash_calls_file_events, hinv]
      rfl
    · intro c hc heq
      rw [main_hash_calls W L argv hv] at hc
      obtain ⟨g, hg, hc2⟩ := List.mem_flatMap.mp hc
      obtain ⟨t, _, rfl⟩ := List.mem_map.mp hc2
      have hgv : valid W g = true := (List.mem_filter.mp hg).2
      simp only at heq
      rw [heq, hinv] at hgv
      exact absurd hgv (by decide)

/-- C8 at `filehash a.txt dir nope b.txt`: exit status 1, and the lines of `a.txt` and
`b.txt` on standard output, in this order. -/
theorem mixed_files_in_order_witness :
    (main sampleWorld sampleSSL ["filehash", "a.txt", "dir", "nope", "b.txt"]).1 = 1
      ∧ stdout_of (main sampleWorld sampleSSL ["filehash", "a.txt", "dir", "nope", "b.txt"]).2
          = [digest_line sampleWorld sampleSSL "a.txt" HASH_MD5,
             digest_line sampleWorld sampleSSL "b.txt" HASH_MD5] := by
  have h := mixed_files_in_order sampleWorld sampleSSL
    ["filehash", "a.txt", "dir", "nope", "b.txt"] (by decide) (by decide)
  refine ⟨(h.2.2.1 "dir" (by decide) (by decide)).1, ?_⟩
  have e1 : (file_arguments ["filehash", "a.txt", "dir", "nope", "b.txt"]).filter
      (valid sampleWorld) = ["a.txt", "b.txt"] := by decide
  have e2 : requested_types (leading_flags ["filehash", "a.txt", "dir", "nope", "b.txt"])
      = [HASH_MD5] := by decide
  have e3 : hashes sampleWorld sampleSSL "a.txt" HASH_MD5 = true := by
    simp only [hashes, calculate_file_hash_ret]; decide
  have e4 : hashes sampleWorld sampleSSL "b.txt" HASH_MD5 = true := by
    simp only [hashes, calculate_file_hash_ret]; decide
  rw [h.2.2.2, e1, e2]
  simp [List.filter_cons, e3, e4]

theorem fopen_of_inode (W : World) (f : String) (ino : Inode) (h : W.fs f = some ino)
    (ho : ino.openable = true) :
    fopen W f
      = some { pending := ino.data, failing := ino.read_error, eof := false, error := false,
               faults := ino.faults } := by
  simp [fopen, h, ho]

theorem openable_of_fopen (W : World) (f : String) (ino : Inode) (file : FILE)
    (h : W.fs f = some ino) (hopen : fopen W f = some file) : ino.openable = true := by
  simp only [fopen, h] at hopen
  cases ho : ino.openable with
  | true => rfl
  | false => simp [ho] at hopen

/-- Two openable files with the same bytes and the same read failures on the way give
the same result, whether their streams end in end-of-file or in a read error. -/
theorem calculate_file_hash_data (W W2 : World) (L : OpenSSL) (f : String) (t : hash_type_t)
    (buf : Buffer) (ino ino2 : Inode) (h : W.fs f = some ino) (h2 : W2.fs f = some ino2)
    (ho : ino.openable = true) (ho2 : ino2.openable = true) (hd : ino2.data = ino.data)
    (hfa : ino2.faults = ino.faults) :
    calculate_file_hash W L f t buf = calculate_file_hash W2 L f t buf := by
  unfold calculate_file_hash
  rw [fopen_of_inode W f ino h ho, fopen_of_inode W2 f ino2 h2 ho2]
  cases t with
  | HASH_MD5 =>
    simp only
    rw [read_loop_pending L.MD5_Update _ _
      { pending := ino2.data, failing := ino2.read_error, eof := false, error := false,
        faults := ino2.faults }
      _ rfl hd.symm hfa.symm]
  | HASH_SHA1 =>
    simp only
    rw [read_loop_pending L.SHA1_Update _ _
      { pending := ino2.data, failing := ino2.read_error, eof := false, error := false,
        faults := ino2.faults }
      _ rfl hd.symm hfa.symm]
  | HASH_SHA256 =>
    simp only
    rw [read_loop_pending L.SHA256_Update _ _
      { pending := ino2.data, failing := ino2.read_error, eof := false, error := false,
        faults := ino2.faults }
      _ rfl hd.symm hfa.symm]

/-- C4, as the code has it: a read failure is never detected.  For a file argument
that validates and opens and of which some read of the chunk loop fails (the error
indicator is set when the loop ends), `calculate_file_hash` returns 0 for every
algorithm; `main` therefore records return value 0 for each requested algorithm, calls
`print_hash` and prints the digest line; and the exit status of `main` is 0 exactly when
every file argument validates and opens, read failures playing no part.
`calculate_file_hash` returns non-zero exactly when `fopen` fails.  In the chunk loop a
read that returns no bytes ends the loop with the context unchanged, whether it hit
end-of-file or failed, and a read that returns some bytes has them fed to Update and
the loop goes on, whether or not that read failed; so a file whose last read fails
gives the same result as one with the same bytes, and the same failures on the way,
that ends in end-of-file. -/
theorem read_error_ends_stream (W : World) (L : OpenSSL) (argv : List String) (f : String)
    (file : FILE)
    (hv : ∀ t ∈ leading_flags argv, is_help_or_version t = false)
    (hf : f ∈ file_arguments argv)
    (hvalid : valid W f = true)
    (hopen : fopen W f = some file)
    (hfail : read_fails file = true) :
    (∀ (t : hash_type_t) (buf : Buffer), (calculate_file_hash W L f t buf).1 = 0)
      ∧ (∀ (CTX : Type) (U : CTX → List Byte → CTX) (ctx : CTX),
          (read_loop U file ctx).2.error = true)
      ∧ (∀ t ∈ requested_types (leading_flags argv),
          (f, t, (0 : Int)) ∈ hash_calls (main W L argv).2
            ∧ (digest_length t, f, t) ∈ print_calls (main W L argv).2
            ∧ digest_line W L f t ∈ stdout_of (main W L argv).2)
      ∧ ((main W L argv).1 = 0 ↔
          ∀ g ∈ file_arguments argv, valid W g = true ∧ (fopen W g).isSome = true)
      ∧ (∀ (W3 : World) (g : String) (u : hash_type_t) (b : Buffer),
          (calculate_file_hash W3 L g u b).1 ≠ 0 ↔ fopen W3 g = none)
      ∧ (∀ (CTX : Type) (U : CTX → List Byte → CTX) (s : FILE) (ctx : CTX),
          ((fread BUFFER_SIZE s).1 = [] → read_loop U s ctx = (ctx, (fread BUFFER_SIZE s).2))
            ∧ ((fread BUFFER_SIZE s).1 ≠ [] →
                read_loop U s ctx
                  = read_loop U (fread BUFFER_SIZE s).2 (U ctx (fread BUFFER_SIZE s).1)))
      ∧ (∀ (W2 : World) (ino ino2 : Inode) (t : hash_type_t) (buf : Buffer),
          W.fs f = some ino → W2.fs f = some ino2 → ino2.openable = true →
          ino2.data = ino.data → ino2.faults = ino.faults →
          calculate_file_hash W L f t buf = calculate_file_hash W2 L f t buf) := by
  have hfiles : file_arguments argv ≠ [] := List.ne_nil_of_mem hf
  have hret : ∀ (t : hash_type_t) (buf : Buffer), (calculate_file_hash W L f t buf).1 = 0 := by
    intro t buf
    rw [calculate_file_hash_ret, hopen]
    rfl
  have hhash : ∀ t, hashes W L f t = true := by
    intro t
    simp [hashes, hret]
  have hfv : f ∈ (file_arguments argv).filter (valid W) := List.mem_filter.mpr ⟨hf, hvalid⟩
  refine ⟨hret, ?_, ?_, ?_, ?_, ?_, ?_⟩
  · intro CTX U ctx
    rw [read_loop_stream U (fun (c : Unit) (_ : List Byte) => c) _ file ctx () rfl]
    exact hfail
  · intro t ht
    refine ⟨?_, ?_, ?_⟩
    · rw [main_hash_calls W L argv hv]
      exact List.mem_flatMap.mpr ⟨f, hfv, List.mem_map.mpr ⟨t, ht, by rw [hret]⟩⟩
    · rw [main_print_calls W L argv hv]
      exact List.mem_flatMap.mpr
        ⟨f, hfv, List.mem_map.mpr ⟨t, List.mem_filter.mpr ⟨ht, hhash t⟩, rfl⟩⟩
    · rw [main_stdout W L argv hv hfiles]
      exact List.mem_flatMap.mpr
        ⟨f, hfv, List.mem_map.mpr ⟨t, List.mem_filter.mpr ⟨ht, hhash t⟩, rfl⟩⟩
  · rw [main_exit_code W L argv hv hfiles]
    have hne : ∃ t, t ∈ requested_types (leading_flags argv) := by
      unfold requested_types
      cases all_requested (leading_flags argv)
      · exact ⟨_, List.mem_singleton.mpr rfl⟩
      · exact ⟨HASH_MD5, List.mem_cons_self _ _⟩
    obtain ⟨t0, ht0⟩ := hne
    have hiff : (∀ g ∈ file_arguments argv, (is_valid_file W g).1 ≠ 0
          ∧ ∀ t ∈ requested_types (leading_flags argv),
              (calculate_file_hash W L g t W.uninit).1 = 0)
        ↔ ∀ g ∈ file_arguments argv, valid W g = true ∧ (fopen W g).isSome = true := by
      constructor
      · intro h g hg
        obtain ⟨h1, h2⟩ := h g hg
        refine ⟨by simp [valid, h1], ?_⟩
        have h3 := h2 t0 ht0
        rw [calculate_file_hash_ret] at h3
        by_contra hc
        rw [if_neg hc] at h3
        exact absurd h3 (by decide)
      · intro h g hg
        obtain ⟨h1, h2⟩ := h g hg
        refine ⟨by simpa [valid] using h1, fun t _ => ?_⟩
        rw [calculate_file_hash_ret, if_pos h2]
    rw [← hiff]
    constructor
    · intro h
      by_contra hc
      rw [if_neg hc] at h
      exact absurd h (by decide)
    · intro h
      rw [if_pos h]
  · intro W3 g u b
    rw [calculate_file_hash_ret]
    cases fopen W3 g <;> simp
  · intro CTX U s ctx
    constructor
    · intro h0
      rw [read_loop_unfold, if_neg (by rw [h0]; decide)]
    · intro h1
      rw [read_loop_unfold, if_pos (List.length_pos.mpr h1)]
  · intro W2 ino ino2 t buf h h2 ho2 hd hfa
    exact calculate_file_hash_data W W2 L f t buf ino ino2 h h2
      (openable_of_fopen W f ino file h hopen) ho2 hd hfa

/-- C4 at `filehash bad`: the reads of `bad` fail after three bytes, and the run exits
with status 0 after printing the digest line of `bad`. -/
theorem read_error_ends_stream_witness :
    read_fails { pending := [1, 2, 3], failing := true, eof := false, error := false } = true
      ∧ (main sampleWorld sampleSSL ["filehash", "bad"]).1 = 0
      ∧ digest_line sampleWorld sampleSSL "bad" HASH_MD5
          ∈ stdout_of (main sampleWorld sampleSSL ["filehash", "bad"]).2 := by
  have hfail : read_fails
      { pending := [1, 2, 3], failing := true, eof := false, error := false } = true := by
    unfold read_fails
    rw [read_loop_unfold, if_pos (by decide), read_loop_unfold, if_neg (by decide)]
    decide
  have h := read_error_ends_stream sampleWorld sampleSSL ["filehash", "bad"] "bad"
    { pending := [1, 2, 3], failing := true, eof := false, error := false }
    (by decide) (by decide) (by decide) (by decide) hfail
  exact ⟨hfail, h.2.2.2.1.mpr (by decide), (h.2.2.1 HASH_MD5 (by decide)).2.2⟩

/-- C4 fails as stated: the reads of `bad` fail after three bytes (the error indicator
of the stream is set when the loop ends), yet `calculate_file_hash` returns 0, and
`filehash bad` prints a digest line and exits with status 0.  Likewise for `flaky`,
whose first read fails after three of its seven bytes: the run exits with status 0
and prints the digest of all seven bytes. -/
theorem read_error_goes_unreported :
    fopen sampleWorld "bad"
        = some { pending := [1, 2, 3], failing := true, eof := false, error := false }
      ∧ (read_loop sampleSSL.MD5_Update
          { pending := [1, 2, 3], failing := true, eof := false, error := false }
          sampleSSL.MD5_Init).2.error = true
      ∧ (calculate_file_hash sampleWorld sampleSSL "bad" HASH_MD5 sampleWorld.uninit).1 = 0
      ∧ main sampleWorld sampleSSL ["filehash", "bad"]
          = (0, [Event.is_valid_file "bad" 1,
                 Event.calculate_file_hash "bad" HASH_MD5 0,
                 Event.print_hash 16 "bad" HASH_MD5,
                 Event.stdout "MD5 (06060606060606060606060606060606) = bad\n"])
      ∧ fopen flakyWorld "flaky"
          = some { pending := [1, 2, 3, 4, 5, 6, 7], failing := false, eof := false,
                   error := false, faults := [3] }
      ∧ (fread BUFFER_SIZE
          { pending := [1, 2, 3, 4, 5, 6, 7], failing := false, eof := false,
            error := false, faults := [3] }).1 = [1, 2, 3]
      ∧ (fread BUFFER_SIZE
          { pending := [1, 2, 3, 4, 5, 6, 7], failing := false, eof := false,
            error := false, faults := [3] }).2.error = true
      ∧ (main flakyWorld sampleSSL ["filehash", "flaky"]).1 = 0
      ∧ stdout_of (main flakyWorld sampleSSL ["filehash", "flaky"]).2
          = ["MD5 (1c1c1c1c1c1c1c1c1c1c1c1c1c1c1c1c) = flaky\n"] := by
  refine ⟨by decide, ?_, ?_, ?_, by decide, by decide, by decide, ?_, ?_⟩
  · rw [read_loop_unfold, if_pos (by decide), read_loop_unfold, if_neg (by decide)]
    decide
  · rw [calculate_file_hash_ret]; decide
  · rw [main_files _ _ _ (by decide) (by decide)]
    unfold file_ok file_events hash_events
    simp only [fun f t buf => calculate_file_hash_concat sampleWorld sampleSSL
      sampleSSL_concatenates f t buf (sampleWorld_no_faults f)]
    decide
  · rw [main_exit_code _ _ _ (by decide) (by decide)]
    simp only [calculate_file_hash_ret]
    decide
  · have hloop : (read_loop sampleSSL.MD5_Update
        { pending := [1, 2, 3, 4, 5, 6, 7], failing := false, eof := false,
          error := false, faults := [3] } sampleSSL.MD5_Init).1 = [1, 2, 3, 4, 5, 6, 7] := by
      rw [read_loop_unfold, if_pos (by decide), read_loop_unfold, if_pos (by decide),
        read_loop_unfold, if_neg (by decide)]
      rfl
    have hc : calculate_file_hash flakyWorld sampleSSL "flaky" HASH_MD5 flakyWorld.uninit
        = (0, store flakyWorld.uninit (checksum 16 [1, 2, 3, 4, 5, 6, 7]), []) := by
      unfold calculate_file_hash
      rw [show fopen flakyWorld "flaky"
        = some { pending := [1, 2, 3, 4, 5, 6, 7], failing := false, eof := false,
                 error := false, faults := [3] } from by decide]
      simp only
      rw [hloop]
      rfl
    have e1 : (file_arguments ["filehash", "flaky"]).filter (valid flakyWorld) = ["flaky"] := by
      decide
    have e2 : requested_types (leading_flags ["filehash", "flaky"]) = [HASH_MD5] := by decide
    have e3 : hashes flakyWorld sampleSSL "flaky" HASH_MD5 = true := by
      simp only [hashes, calculate_file_hash_ret]; decide
    rw [main_stdout _ _ _ (by decide) (by decide), e1, e2]
    simp only [List.flatMap_cons, List.flatMap_nil, List.filter_cons, e3, if_true,
      List.filter_nil, List.map_cons, List.map_nil, List.append_nil, digest_line, hc]
    decide

/-- C5, as the code has it: when Update concatenates and a file opens and reads
without error, `calculate_file_hash` returns 0 and leaves the one-pass digest (Init,
one Update over the whole content, Final) for every non-empty content, chunked or
not; for the empty file no Update is made and it leaves Final of Init, which is the
one-pass digest as well when moreover `Update(c, []) = c`. -/
theorem chunked_equals_one_pass (W : World) (L : OpenSSL) (f : String) (t : hash_type_t)
    (buf : Buffer) (mode : FileType) (content : List Byte)
    (hL : update_concatenates L)
    (h : W.fs f
      = some { st_mode := mode, openable := true, data := content, read_error := false }) :
    (content ≠ [] →
        calculate_file_hash W L f t buf = (0, store buf (one_pass_digest L t content), []))
      ∧ (content = [] →
          calculate_file_hash W L f t buf = (0, store buf (initial_digest L t), []))
      ∧ (update_neutral L →
          calculate_file_hash W L f t buf = (0, store buf (one_pass_digest L t content), [])) := by
  have heq : calculate_file_hash W L f t buf
      = (0, store buf (if content = [] then initial_digest L t
                       else one_pass_digest L t content), []) := by
    have hfo := fopen_of_inode W f _ h rfl
    rw [calculate_file_hash_concat W L hL f t buf
      (fun file hfile => by rw [hfo] at hfile; cases hfile; rfl), one_pass_result, hfo]
  refine ⟨?_, ?_, ?_⟩
  · intro hne; rw [heq, if_neg hne]
  · intro hnil; rw [heq, if_pos hnil]
  · intro hN
    by_cases hnil : content = []
    · rw [heq, if_pos hnil, hnil]
      obtain ⟨n1, n2, n3⟩ := hN
      cases t
      · simp only [initial_digest, one_pass_digest, n1]
      · simp only [initial_digest, one_pass_digest, n2]
      · simp only [initial_digest, one_pass_digest, n3]
    · rw [heq, if_neg hnil]

/-- C5 at a file of 8193 zero bytes, one more than the chunk size. -/
theorem chunked_equals_one_pass_witness :
    update_concatenates sampleSSL
      ∧ calculate_file_hash bigWorld sampleSSL "big" HASH_SHA256 bigWorld.uninit
        = (0, store bigWorld.uninit
                (one_pass_digest sampleSSL HASH_SHA256 (List.replicate 8193 0)), []) :=
  ⟨sampleSSL_concatenates,
   (chunked_equals_one_pass bigWorld sampleSSL "big" HASH_SHA256 bigWorld.uninit
      FileType.regular (List.replicate 8193 0) sampleSSL_concatenates rfl).1
     (List.ne_nil_of_length_pos (by rw [List.length_replicate]; decide))⟩

/-- C5 fails as stated for the empty file: `markingSSL` satisfies
`Update(Update(c, a), b) = Update(c, a ++ b)`, the chunked loop makes no Update for the
empty file and leaves the digest `ff...`, while Init, one Update over the (empty)
content, Final gives `00...`. -/
theorem chunked_differs_on_empty_file :
    update_concatenates markingSSL
      ∧ fopen sampleWorld "empty"
          = some { pending := [], failing := false, eof := false, error := false }
      ∧ (calculate_file_hash sampleWorld markingSSL "empty" HASH_MD5 sampleWorld.uninit).1 = 0
      ∧ (calculate_file_hash sampleWorld markingSSL "empty" HASH_MD5 sampleWorld.uninit).2.1 0
          = 255
      ∧ store sampleWorld.uninit (one_pass_digest markingSSL HASH_MD5 []) 0 = 0 := by
  refine ⟨markingSSL_concatenates, by decide, ?_, ?_, by decide⟩
  · rw [calculate_file_hash_ret]; decide
  · rw [calculate_file_hash_concat _ _ markingSSL_concatenates _ _ _
      (sampleWorld_no_faults "empty")]
    decide

/-- C9, as the code has it: the diagnostic stream of a run holds, file argument by
file argument, one `Cannot access file` line for a path that cannot be stat-ed; two
lines for a directory and for any other non-regular file (the reason line of
`is_valid_file`, then the `Cannot access file` line of `main`); one `Cannot open file`
line per requested algorithm (one in single mode, three in `--all` mode) for a regular
file that cannot be opened; and nothing for a file that opens.  Every such line starts
with `Error: ` and names the path in quotes. -/
theorem file_level_diagnostics (W : World) (L : OpenSSL) (argv : List String)
    (hv : ∀ t ∈ leading_flags argv, is_help_or_version t = false)
    (hfiles : file_arguments argv ≠ []) :
    stderr_of (main W L argv).2
        = (file_arguments argv).flatMap (diagnostics W (requested_types (leading_flags argv)))
      ∧ (∀ (f : String) (types : List hash_type_t),
          (W.fs f = none →
            diagnostics W types f = ["Error: Cannot access file '" ++ f ++ "'\n"])
          ∧ (∀ ino, W.fs f = some ino → ino.st_mode = FileType.directory →
              diagnostics W types f
                = ["Error: '" ++ f ++ "' is a directory, not a file\n",
                   "Error: Cannot access file '" ++ f ++ "'\n"])
          ∧ (∀ ino, W.fs f = some ino → ino.st_mode = FileType.special →
              diagnostics W types f
                = ["Error: '" ++ f ++ "' is not a regular file\n",
                   "Error: Cannot access file '" ++ f ++ "'\n"])
          ∧ (∀ ino, W.fs f = some ino → ino.st_mode = FileType.regular →
              ino.openable = false →
              diagnostics W types f
                = List.replicate types.length ("Error: Cannot open file '" ++ f ++ "'\n"))
          ∧ (∀ ino, W.fs f = some ino → ino.st_mode = FileType.regular →
              ino.openable = true → diagnostics W types f = []))
      ∧ (∀ (f : String) (types : List hash_type_t), ∀ line ∈ diagnostics W types f,
          ∃ a b : String, line = "Error: " ++ a ++ "'" ++ f ++ "'" ++ b ++ "\n")
      ∧ (requested_types (leading_flags argv)).length
          = (if all_requested (leading_flags argv) = true then 3 else 1) := by
  refine ⟨main_stderr W L argv hv hfiles, ?_, ?_, ?_⟩
  · intro f types
    refine ⟨?_, ?_, ?_, ?_, ?_⟩
    · intro h0; simp [diagnostics, h0]
    · intro ino h0 hm; simp [diagnostics, h0, hm]
    · intro ino h0 hm; simp [diagnostics, h0, hm]
    · intro ino h0 hm ho
      simp only [diagnostics, h0, hm, ho]
      simp [List.map_const]
    · intro ino h0 hm ho; simp [diagnostics, h0, hm, ho]
  · intro f types line hline
    have hacc : "Error: Cannot access file '" ++ f ++ "'\n"
        = "Error: " ++ "Cannot access file " ++ "'" ++ f ++ "'" ++ "" ++ "\n" := by
      apply String.ext; simp [String.data_append]
    have hdir : "Error: '" ++ f ++ "' is a directory, not a file\n"
        = "Error: " ++ "" ++ "'" ++ f ++ "'" ++ " is a directory, not a file" ++ "\n" := by
      apply String.ext; simp [String.data_append]
    have hreg : "Error: '" ++ f ++ "' is not a regular file\n"
        = "Error: " ++ "" ++ "'" ++ f ++ "'" ++ " is not a regular file" ++ "\n" := by
      apply String.ext; simp [String.data_append]
    have hopen : "Error: Cannot open file '" ++ f ++ "'\n"
        = "Error: " ++ "Cannot open file " ++ "'" ++ f ++ "'" ++ "" ++ "\n" := by
      apply String.ext; simp [String.data_append]
    unfold diagnostics at hline
    cases h0 : W.fs f with
    | none =>
      simp only [h0, List.mem_singleton] at hline
      exact ⟨_, _, hline.trans hacc⟩
    | some ino =>
      cases hm : ino.st_mode with
      | directory =>
        simp only [h0, hm, List.mem_cons, List.mem_singleton, List.not_mem_nil, or_false] at hline
        rcases hline with hl | hl
        · exact ⟨_, _, hl.trans hdir⟩
        · exact ⟨_, _, hl.trans hacc⟩
      | special =>
        simp only [h0, hm, List.mem_cons, List.mem_singleton, List.not_mem_nil, or_false] at hline
        rcases hline with hl | hl
        · exact ⟨_, _, hl.trans hreg⟩
        · exact ⟨_, _, hl.trans hacc⟩
      | regular =>
        simp only [h0, hm] at hline
        cases ho : ino.openable with
        | true => simp [ho] at hline
        | false =>
          simp only [ho, Bool.false_eq_true, if_false, List.mem_map] at hline
          obtain ⟨_, _, hl⟩ := hline
          exact ⟨_, _, hl.symm.trans hopen⟩
  · unfold requested_types
    cases all_requested (leading_flags argv) <;> rfl

/-- C9 at `filehash dir locked`. -/
theorem file_level_diagnostics_witness :
    stderr_of (main sampleWorld sampleSSL ["filehash", "dir", "locked"]).2
      = ["Error: 'dir' is a directory, not a file\n",
         "Error: Cannot access file 'dir'\n",
         "Error: Cannot open file 'locked'\n"] :=
  (file_level_diagnostics sampleWorld sampleSSL ["filehash", "dir", "locked"]
    (by decide) (by decide)).1.trans (by decide)

/-- C9 fails as stated: the single failing file argument `dir`, a directory, gets two
diagnostic lines, and in `--all` mode the regular file `locked`, which cannot be
opened, gets three. -/
theorem directory_gets_two_lines :
    stderr_of (main sampleWorld sampleSSL ["filehash", "dir"]).2
        = ["Error: 'dir' is a directory, not a file\n", "Error: Cannot access file 'dir'\n"]
      ∧ stderr_of (main sampleWorld sampleSSL ["filehash", "-a", "locked"]).2
        = ["Error: Cannot open file 'locked'\n", "Error: Cannot open file 'locked'\n",
           "Error: Cannot open file 'locked'\n"] := by
  constructor
  · rw [main_stderr _ _ _ (by decide) (by decide)]; decide
  · rw [main_stderr _ _ _ (by decide) (by decide)]; decide

end FileHash
